import Mathlib

/-!
Verification of the Archipelago client state manager implemented in
`src/archipelago/apdoom.cpp`.

The development shallowly embeds the relevant C++ code.  C `int` values are
modelled as `Int` (index arithmetic converts to `Nat` via `Int.toNat` at the
array boundary, with bounds hypotheses in theorems wherever the C code would
otherwise index out of range).  The 64-bit `unsigned long long` arithmetic of
`hash_seed` is modelled as `Nat` arithmetic taken `% 2 ^ 64` at every step.
The per-title catalog tables (`apdoom_def.h`, `apdoom2_def.h`,
`apheretic_def.h` are external read-only data not in scope) are parameters: a
`Catalogs` record of association lists, mirroring the `std::map` tables the
code switches over.  Calls out of the module (the give-item callback, the
victory callback, `AP_StoryComplete`, `AP_SendItem`) are recorded in an
ordered event log; `printf` console output is not an observable effect of the
model.
-/

/-- Association-list lookup, modelling `std::map::find` (keys of a
`std::map` are unique, so first-match lookup coincides with map lookup). -/
def alookup {α : Type} (k : Int) : List (Int × α) → Option α
  | [] => none
  | (k', v) :: rest => if k' = k then some v else alookup k rest

/-- Positional overwrite of the prefix of `cur` by the entries of `doc`:
models the load loops `for (i = 0; i < n; ++i) json_get_int(doc[i], cur[i])`
where `cur` has length `n` (the allocation size from `apdoom_init`) and a
missing document entry (`doc` shorter than `cur`) is a JSON null, which
`json_get_int` ignores, keeping the in-memory default. -/
def loadInts : List Int → List Int → List Int
  | [], _ => []
  | cur, [] => cur
  | _ :: cur, d :: doc => d :: loadInts cur doc

/-- Like `loadInts` but merging with bitwise OR: models the load loops that
call `json_get_bool_or` (`cur[i] |= doc[i]`) positionally. -/
def loadOrInts : List Int → List Int → List Int
  | [], _ => []
  | cur, [] => cur
  | c :: cur, d :: doc => Int.lor c d :: loadOrInts cur doc

/-- Positional overwrite for inventory slots (`{type, count}` pairs read with
two `json_get_int` calls each; a missing slot object yields two nulls and
keeps the defaults). -/
def loadSlots : List (Int × Int) → List (Int × Int) → List (Int × Int)
  | [], _ => []
  | cur, [] => cur
  | _ :: cur, d :: doc => d :: loadSlots cur doc

/-- Map with the element's position, used to model loops of the shape
`for (ep) for (map) a[ep * map_count + map] = f(ep * map_count + map)`
as one pass over the arena array. -/
def mapWithIndexFrom {α : Type} (f : Nat → α → α) : Nat → List α → List α
  | _, [] => []
  | i, a :: as => f i a :: mapWithIndexFrom f (i + 1) as

def mapWithIndex {α : Type} (f : Nat → α → α) (l : List α) : List α :=
  mapWithIndexFrom f 0 l

/-! ## Data model (`ap_state_t` and friends)

The struct layouts come from their use sites in `apdoom.cpp` (the defining
header is external data): every field below is read or written by the
translation unit under verification. -/

/-- `ap_level_state_t`: per-(episode, map) progress record.  `checks` is the
fixed-size `int checks[AP_CHECK_MAX]` array (length `AP_CHECK_MAX`, a
compile-time capacity kept as a parameter of `apdoom_init` here); the C write
`checks[check_count] = v` is modelled by `List.set`, which is a no-op when
`check_count` is out of range — exactly the situation claim C9 is about. -/
structure ap_level_state_t where
  completed : Int
  keys : List Int          -- int keys[3]
  check_count : Nat        -- C int; only ever zero-initialised and incremented
  checks : List Int        -- int checks[AP_CHECK_MAX]
  has_map : Int
  unlocked : Int
  special : Int
  flipped : Int
  deriving DecidableEq, Repr

instance : Inhabited ap_level_state_t :=
  ⟨{ completed := 0, keys := [0, 0, 0], check_count := 0, checks := [],
     has_map := 0, unlocked := 0, special := 0, flipped := 0 }⟩

/-- `ap_player_state_t` as used by `apdoom.cpp`.  Inventory slots are
(type, count) pairs. -/
structure ap_player_state_t where
  health : Int
  armor_points : Int
  armor_type : Int
  backpack : Int
  ready_weapon : Int
  kill_count : Int
  item_count : Int
  secret_count : Int
  powers : List Int
  weapon_owned : List Int
  ammo : List Int
  max_ammo : List Int
  inventory : List (Int × Int)
  deriving DecidableEq, Repr

/-- `ap_state_t`: the session state. `level_states` is the flat arena indexed
by `(ep - 1) * ap_map_count + (map - 1)`. -/
structure ap_state_t where
  player_state : ap_player_state_t
  level_states : List ap_level_state_t
  episodes : List Int
  ep : Int
  map : Int
  difficulty : Int
  random_monsters : Int
  random_items : Int
  flip_levels : Int
  two_ways_keydoors : Int
  victory : Int
  deriving DecidableEq, Repr

/-- Notification icon (`ap_notification_icon_t`) as created by `f_itemrecv`.
The float position/velocity fields and the integer screen coordinates are
presentation data driven by the animation in `apdoom_update`; no claim
concerns them, so only the creation-time payload is modelled. -/
structure ap_notification_icon_t where
  sprite : String          -- char sprite[9]; snprintf copies at most 8 chars
  text : String
  t : Nat
  deriving DecidableEq, Repr

/-- Externally observable calls made by the module. -/
inductive ApEvent where
  | give_item (doom_type ep map : Int)   -- ap_settings.give_item_callback
  | story_complete                       -- AP_StoryComplete()
  | victory_cb                           -- ap_settings.victory_callback
  | send_item (id : Int)                 -- AP_SendItem(id)
  deriving DecidableEq, Repr

/-- The file-scope mutable globals of `apdoom.cpp` that the claims are about,
bundled: `ap_state`, `ap_item_queue`, `ap_progressive_locations`,
`ap_notification_icons`, `ap_is_in_game`, plus the event log of outbound
calls. -/
structure ApWorld where
  state : ap_state_t
  item_queue : List Int
  progressive : Finset Int
  icons : List ap_notification_icon_t
  in_game : Bool
  log : List ApEvent
  deriving DecidableEq

/-! ## Game profiles and static tables from `apdoom.cpp` itself -/

inductive ap_game_t where
  | doom
  | doom2
  | heretic
  deriving DecidableEq, Repr

open ap_game_t

/-- Episode count set by `apdoom_init` per game title. -/
def ap_episode_count : ap_game_t → Nat
  | doom => 4
  | doom2 => 1
  | heretic => 5

def ap_map_count : ap_game_t → Nat
  | doom => 9
  | doom2 => 32
  | heretic => 9

def ap_weapon_count : ap_game_t → Nat
  | doom => 9
  | doom2 => 9
  | heretic => 9

def ap_ammo_count : ap_game_t → Nat
  | doom => 4
  | doom2 => 4
  | heretic => 6

def ap_powerup_count : ap_game_t → Nat
  | doom => 6
  | doom2 => 6
  | heretic => 9

def ap_inventory_count : ap_game_t → Nat
  | doom => 0
  | doom2 => 0
  | heretic => 14

def doom_max_ammos : List Int := [200, 50, 300, 50]
def doom2_max_ammos : List Int := [200, 50, 300, 50]
def heretic_max_ammos : List Int := [100, 50, 200, 200, 20, 150]

def get_max_ammos : ap_game_t → List Int
  | doom => doom_max_ammos
  | doom2 => doom2_max_ammos
  | heretic => heretic_max_ammos

def doom_keys_map : List (Int × Int) :=
  [(5, 0), (40, 0), (6, 1), (39, 1), (13, 2), (38, 2)]
def doom2_keys_map : List (Int × Int) :=
  [(5, 0), (40, 0), (6, 1), (39, 1), (13, 2), (38, 2)]
def heretic_keys_map : List (Int × Int) := [(80, 0), (73, 1), (79, 2)]

def get_keys_map : ap_game_t → List (Int × Int)
  | doom => doom_keys_map
  | doom2 => doom2_keys_map
  | heretic => heretic_keys_map

def get_map_doom_type : ap_game_t → Int
  | doom => 2026
  | doom2 => 2026
  | heretic => 35

def doom_weapons_map : List (Int × Int) :=
  [(2001, 2), (2002, 3), (2003, 4), (2004, 5), (2006, 6), (2005, 7)]
def doom2_weapons_map : List (Int × Int) :=
  [(2001, 2), (2002, 3), (2003, 4), (2004, 5), (2006, 6), (2005, 7), (82, 1)]
def heretic_weapons_map : List (Int × Int) :=
  [(2005, 7), (2001, 2), (53, 3), (2003, 5), (2002, 6), (2004, 4)]

def get_weapons_map : ap_game_t → List (Int × Int)
  | doom => doom_weapons_map
  | doom2 => doom2_weapons_map
  | heretic => heretic_weapons_map

/-! ## External catalog data (the per-title `*_def.h` tables) -/

/-- `ap_item_t`: catalog record for an item network id. -/
structure ap_item_t where
  doom_type : Int
  ep : Int
  map : Int
  deriving DecidableEq, Repr

/-- The nested `std::map<ep, std::map<map, std::map<index, loc_id>>>`
location table, as an ordered association list (iteration order of a
`std::map` is its key order). -/
abbrev LocTable : Type :=
  List (Int × List (Int × List (Int × Int)))

/-- The read-only per-title catalog tables.  These live in the external
`*_def.h` headers; the code under verification only selects among them and
looks keys up, so they are parameters of the model. -/
structure Catalogs where
  ap_doom_item_table : List (Int × ap_item_t)
  ap_doom2_item_table : List (Int × ap_item_t)
  ap_heretic_item_table : List (Int × ap_item_t)
  ap_doom_location_table : LocTable
  ap_doom2_location_table : LocTable
  ap_heretic_location_table : LocTable
  ap_heretic_type_sprites : List (Int × String)
  doom_level_names : Int → Int → String
  doom2_level_names : Int → Int → String
  heretic_level_names : Int → Int → String

/-- `get_item_type_table`: switch over the active game. -/
def get_item_type_table (cat : Catalogs) : ap_game_t → List (Int × ap_item_t)
  | doom => cat.ap_doom_item_table
  | doom2 => cat.ap_doom2_item_table
  | heretic => cat.ap_heretic_item_table

/-- `get_location_table`: switch over the active game. -/
def get_location_table (cat : Catalogs) : ap_game_t → LocTable
  | doom => cat.ap_doom_location_table
  | doom2 => cat.ap_doom2_location_table
  | heretic => cat.ap_heretic_location_table

/-- `ap_get_level_info(ep, map)->name`: switch over the active game; the C
indexes the static array with `[ep - 1][map - 1]`. -/
def ap_get_level_info_name (cat : Catalogs) (g : ap_game_t) (ep map : Int) : String :=
  match g with
  | doom => cat.doom_level_names (ep - 1) (map - 1)
  | doom2 => cat.doom2_level_names (ep - 1) (map - 1)
  | heretic => cat.heretic_level_names (ep - 1) (map - 1)

/-- Arena index of `ap_get_level_state(ep, map)`:
`(ep - 1) * ap_map_count + (map - 1)`. -/
def arena (mc : Nat) (ep map : Int) : Nat :=
  ((ep - 1) * (mc : Int) + (map - 1)).toNat

/-! ## Initialization (`apdoom_init`, lines 306–372: the state setup) -/

/-- One zero-initialised level state, with `checks` filled with the `-1`
sentinel (`apdoom_init` lines 369–372). -/
def init_level (CMAX : Nat) : ap_level_state_t :=
  { completed := 0, keys := [0, 0, 0], check_count := 0,
    checks := List.replicate CMAX (-1),
    has_map := 0, unlocked := 0, special := 0, flipped := 0 }

/-- Zero-initialised player state plus the default loadout from
`apdoom_init`: 100 health, ready weapon 1, fist+pistol owned, 50 clip ammo,
max ammo from the catalog table. -/
def init_player (g : ap_game_t) : ap_player_state_t :=
  { health := 100, armor_points := 0, armor_type := 0, backpack := 0,
    ready_weapon := 1, kill_count := 0, item_count := 0, secret_count := 0,
    powers := List.replicate (ap_powerup_count g) 0,
    weapon_owned := ((List.replicate (ap_weapon_count g) 0).set 0 1).set 1 1,
    ammo := (List.replicate (ap_ammo_count g) 0).set 0 50,
    max_ammo := get_max_ammos g,
    inventory := List.replicate (ap_inventory_count g) (0, 0) }

def init_state (g : ap_game_t) (CMAX : Nat) : ap_state_t :=
  { player_state := init_player g,
    level_states :=
      List.replicate (ap_episode_count g * ap_map_count g) (init_level CMAX),
    episodes := List.replicate (ap_episode_count g) 0,
    ep := 0, map := 0, difficulty := 0, random_monsters := 0,
    random_items := 0, flip_levels := 0, two_ways_keydoors := 0, victory := 0 }

/-- The globals at the start of a fresh process after `apdoom_init`'s state
setup: empty pending queue, empty progressive set, no icons, not in game. -/
def init_world (g : ap_game_t) (CMAX : Nat) : ApWorld :=
  { state := init_state g CMAX, item_queue := [], progressive := ∅,
    icons := [], in_game := false, log := [] }

/-! ## Seed hashing and level flips (`hash_seed`, `apdoom_init` 439–454) -/

/-- `hash_seed`: djb2 over the NUL-terminated name, on `unsigned long long`.
The string is the list of its (nonzero, ASCII) bytes; every step is taken
mod `2 ^ 64` as the C unsigned arithmetic wraps. -/
def hash_seed (s : List Nat) : Nat :=
  s.foldl (fun h c => ((h <<< 5) + h + c) % 2 ^ 64) 5381

/-- Modelled from the spec: "derive a 64-bit hash from the save-directory
name (a simple polynomial string hash, base 33)" — the `h = h * 33 + c`
form named by claim C8, to be compared with the source's shift form. -/
def hash_seed_spec (s : List Nat) : Nat :=
  s.foldl (fun h c => (h * 33 + c) % 2 ^ 64) 5381

/-- The level-flip decision of `apdoom_init` (lines 439–454).  `rng s k` is
the value of the `k`-th `rand()` call after `srand(s)`; `srand` takes an
`unsigned int`, so the 64-bit hash is reduced mod `2 ^ 32` at the call.  The
double loop writes arena index `ep * map_count + map` exactly once for every
`k < episode_count * map_count`, in increasing order, consuming one `rand()`
per level; the guarded indexed map below is that loop. -/
def apply_flips (epc mc : Nat) (flip_mode : Int) (rng : Nat → Nat → Nat)
    (name : List Nat) (ls : List ap_level_state_t) : List ap_level_state_t :=
  if flip_mode = 1 then
    mapWithIndex (fun k lvl => if k < epc * mc then { lvl with flipped := 1 } else lvl) ls
  else if flip_mode = 2 then
    let seed := hash_seed name % 2 ^ 32
    mapWithIndex
      (fun k lvl =>
        if k < epc * mc then { lvl with flipped := Int.ofNat (rng seed k % 2) } else lvl)
      ls
  else ls

/-! ## Location bookkeeping (`is_loc_checked`, `find_location`, `f_locrecv`) -/

/-- `is_loc_checked`: scans `checks[0 .. check_count)` for `index`. -/
def is_loc_checked (lvl : ap_level_state_t) (index : Int) : Bool :=
  (lvl.checks.take lvl.check_count).any (fun c => c == index)

/-- Innermost loop of `find_location`: first index entry whose location id
matches sets `(ep, map, index)` and breaks. -/
def scan_idxs (loc e m : Int) (acc : Int × Int × Int) :
    List (Int × Int) → Int × Int × Int
  | [] => acc
  | (i, id) :: rest => if id = loc then (e, m, i) else scan_idxs loc e m acc rest

/-- Middle loop of `find_location`: after each inner scan the C code breaks
when the accumulated `ep` is no longer `-1`. -/
def scan_maps (loc e : Int) (acc : Int × Int × Int) :
    List (Int × List (Int × Int)) → Int × Int × Int
  | [] => acc
  | (m, idxs) :: rest =>
    let acc' := scan_idxs loc e m acc idxs
    if acc'.1 ≠ -1 then acc' else scan_maps loc e acc' rest

/-- Outer loop of `find_location`, same break condition. -/
def find_location_impl (loc : Int) (acc : Int × Int × Int) :
    LocTable → Int × Int × Int
  | [] => acc
  | (e, maps) :: rest =>
    let acc' := scan_maps loc e acc maps
    if acc'.1 ≠ -1 then acc' else find_location_impl loc acc' rest

/-- `find_location`: out-parameters start at `(-1, -1, -1)`; the function's
boolean result is `ep > 0`. -/
def find_location (tbl : LocTable) (loc : Int) : (Int × Int × Int) × Bool :=
  let r := find_location_impl loc (-1, -1, -1) tbl
  (r, decide (r.1 > 0))

/-- `f_locrecv`: resolve the location id; unknown id only prints and
returns; an already-checked or negative (`-1` completion sentinel) index
returns; otherwise append the index at position `check_count` and increment
`check_count`. -/
def f_locrecv (cat : Catalogs) (g : ap_game_t) (mc : Nat) (w : ApWorld)
    (loc_id : Int) : ApWorld :=
  let fl := find_location (get_location_table cat g) loc_id
  if fl.2 = false then w
  else
    let ep := fl.1.1
    let map := fl.1.2.1
    let index := fl.1.2.2
    let k := arena mc ep map
    let lvl := w.state.level_states.getD k default
    if is_loc_checked lvl index then w
    else if index < 0 then w
    else
      let lvl' := { lvl with checks := lvl.checks.set lvl.check_count index,
                             check_count := lvl.check_count + 1 }
      { w with state := { w.state with level_states := w.state.level_states.set k lvl' } }

/-! ## Item receipt (`f_itemrecv`) -/

/-- The state-mutation phase of `f_itemrecv` (key / map / backpack / weapon /
level-unlock / level-complete, in that fixed order), returning the new state
and the `notif_text` pointer (`some` of the level name when one of the
key/map/unlock branches set it, later branches overwriting earlier ones). -/
def item_apply (cat : Catalogs) (g : ap_game_t) (mc : Nat) (st : ap_state_t)
    (item : ap_item_t) : ap_state_t × Option String :=
  let k := arena mc item.ep item.map
  let lvl0 := st.level_states.getD k default
  -- Key?
  let kd := alookup item.doom_type (get_keys_map g)
  let lvl1 := match kd with
    | some ki => { lvl0 with keys := lvl0.keys.set ki.toNat 1 }
    | none => lvl0
  let ntext0 : Option String := match kd with
    | some _ => some (ap_get_level_info_name cat g item.ep item.map)
    | none => none
  -- Map?
  let isMap := item.doom_type = get_map_doom_type g
  let lvl2 := if isMap then { lvl1 with has_map := 1 } else lvl1
  let ntext1 := if isMap then some (ap_get_level_info_name cat g item.ep item.map) else ntext0
  -- Backpack?
  let ps0 := st.player_state
  let ps1 :=
    if item.doom_type = 8 then
      { ps0 with backpack := 1,
                 max_ammo := loadInts ps0.max_ammo ((get_max_ammos g).map (· * 2)) }
    else ps0
  -- Weapon?
  let ps2 := match alookup item.doom_type (get_weapons_map g) with
    | some wi => { ps1 with weapon_owned := ps1.weapon_owned.set wi.toNat 1 }
    | none => ps1
  -- Is it a level (unlock)?
  let lvl3 := if item.doom_type = -1 then { lvl2 with unlocked := 1 } else lvl2
  let ntext2 := if item.doom_type = -1 then some (ap_get_level_info_name cat g item.ep item.map) else ntext1
  -- Level complete?
  let lvl4 := if item.doom_type = -2 then { lvl3 with completed := 1 } else lvl3
  ({ st with level_states := st.level_states.set k lvl4, player_state := ps2 }, ntext2)

/-- Icon constructed at the end of `f_itemrecv`: `snprintf(sprite, 9, ...)`
keeps at most 8 characters; `text` is empty unless `notif_text` was set. -/
def mk_notif (spr : String) (ntext : Option String) : ap_notification_icon_t :=
  { sprite := spr.take 8, text := ntext.getD "", t := 0 }

/-- `f_itemrecv(item_id, notify_player)`.  An id absent from the selected
game's item table returns before any mutation.  After the state mutations:
no notification → stop; not in game → enqueue on `ap_item_queue` and stop;
otherwise fire the give-item callback and, when the **Heretic** sprite table
(`ap_heretic_type_sprites`, not switched on the game like every other table)
knows the object type, append a notification icon. -/
def f_itemrecv (cat : Catalogs) (g : ap_game_t) (mc : Nat) (w : ApWorld)
    (item_id : Int) (notify_player : Bool) : ApWorld :=
  match alookup item_id (get_item_type_table cat g) with
  | none => w
  | some item =>
    let r := item_apply cat g mc w.state item
    if notify_player = false then { w with state := r.1 }
    else if w.in_game = false then
      { w with state := r.1, item_queue := w.item_queue ++ [item_id] }
    else
      let ev := ApEvent.give_item item.doom_type item.ep item.map
      let w1 := { w with state := r.1, log := w.log ++ [ev] }
      match alookup item.doom_type cat.ap_heretic_type_sprites with
      | some spr => { w1 with icons := w1.icons ++ [mk_notif spr r.2] }
      | none => w1

/-! ## Location submission and victory -/

/-- `apdoom_check_location(ep, map, index)`: three `std::map::find`
lookups; any miss is a no-op.  On a hit the already-checked case (for
`index >= 0`) only prints a console warning — the commented-out append is
dead code — and `AP_SendItem(id)` is always reached. -/
def apdoom_check_location (cat : Catalogs) (g : ap_game_t) (_mc : Nat)
    (w : ApWorld) (ep map index : Int) : ApWorld :=
  match alookup ep (get_location_table cat g) with
  | none => w
  | some mtbl =>
    match alookup map mtbl with
    | none => w
    | some itbl =>
      match alookup index itbl with
      | none => w
      | some id =>
        -- if (index >= 0) { if checked: printf (not an observable of the
        -- model); else: nothing (dead code) } — then always AP_SendItem(id)
        { w with log := w.log ++ [ApEvent.send_item id] }

/-- Loop body of `apdoom_check_victory`: every map of every enabled episode
is completed (`continue` on disabled episodes). `ap_get_level_state(ep+1,
map+1)` reads arena index `ep * map_count + map`. -/
def all_enabled_completed (epc mc : Nat) (eps : List Int)
    (ls : List ap_level_state_t) : Bool :=
  (List.range epc).all fun ep =>
    if eps.getD ep 0 = 0 then true
    else (List.range mc).all fun m =>
      decide ((ls.getD (ep * mc + m) default).completed ≠ 0)

/-- `apdoom_check_victory`: no-op if the victory flag is set; otherwise,
when the scan finds no incomplete map in an enabled episode, set the flag,
call `AP_StoryComplete()` then the victory callback. -/
def apdoom_check_victory (epc mc : Nat) (w : ApWorld) : ApWorld :=
  if w.state.victory ≠ 0 then w
  else if all_enabled_completed epc mc w.state.episodes w.state.level_states then
    { w with state := { w.state with victory := 1 },
             log := w.log ++ [ApEvent.story_complete, ApEvent.victory_cb] }
  else w

/-! ## Pending-item queue drain (`apdoom_update`, lines 1209–1218) -/

/-- Fuelled form of `while (!ap_item_queue.empty()) { pop front;
f_itemrecv(id, true); }`.  The fuel only bounds the iteration count so the
recursion is structural; `apdoom_update_items` supplies `queue.length`,
which is exact because `f_itemrecv` never grows the queue while
`ap_is_in_game` holds (the only push is on the not-in-game path). -/
def drain_items (cat : Catalogs) (g : ap_game_t) (mc : Nat) :
    Nat → ApWorld → ApWorld
  | 0, w => w
  | n + 1, w =>
    match w.item_queue with
    | [] => w
    | id :: rest =>
      drain_items cat g mc n (f_itemrecv cat g mc { w with item_queue := rest } id true)

/-- The pending-item portion of `apdoom_update` (the message pump and the
icon animation touch disjoint state and are outside every claim). -/
def apdoom_update_items (cat : Catalogs) (g : ap_game_t) (mc : Nat)
    (w : ApWorld) : ApWorld :=
  if w.in_game then drain_items cat g mc w.item_queue.length w else w

/-- Replay a list of item ids through `f_itemrecv` with notification
enabled, in order — the reconciliation each drained queue entry re-runs. -/
def recvAll (cat : Catalogs) (g : ap_game_t) (mc : Nat) (w : ApWorld)
    (ids : List Int) : ApWorld :=
  ids.foldl (fun w id => f_itemrecv cat g mc w id true) w

/-! ## Persistence codec (`save_state` / `load_state`) -/

/-- One level as written by `serialize_level`: scalar fields plus the
`checks` array with `-1` sentinel entries omitted.  `check_count` is written
but (like `checks`) never read back by `load_state`. -/
structure LevelDoc where
  completed : Int
  keys0 : Int
  keys1 : Int
  keys2 : Int
  check_count : Nat
  has_map : Int
  unlocked : Int
  special : Int
  checks : List Int
  deriving DecidableEq, Repr

/-- The `player` section of `apstate.json`. -/
structure PlayerDoc where
  health : Int
  armor_points : Int
  armor_type : Int
  backpack : Int
  ready_weapon : Int
  kill_count : Int
  item_count : Int
  secret_count : Int
  powers : List Int
  weapon_owned : List Int
  ammo : List Int
  inventory : List (Int × Int)
  deriving DecidableEq, Repr

/-- The whole `apstate.json` document.  `enabled_episodes` entries are JSON
booleans (`episodes[i] ? true : false`), with `none` for the array slots the
save loop skips: `json["enabled_episodes"][i++] = ...` inside a `++i` loop
writes only even indices (C++17 sequences the right operand first, so entry
`i` receives `episodes[i]`), leaving JSON nulls in between. -/
structure SaveDoc where
  player : PlayerDoc
  episodes : List (List LevelDoc)
  item_queue : List Int
  ep : Int
  enabled_episodes : List (Option Bool)
  map : Int
  progressive_locations : List Int
  victory : Int
  deriving DecidableEq, Repr

/-- `serialize_level(ep, map)` for one level record.  The loop
`for (k < AP_CHECK_MAX) if (checks[k] != -1) append` is the filter over the
length-`AP_CHECK_MAX` `checks` list. -/
def serialize_level (lvl : ap_level_state_t) : LevelDoc :=
  { completed := lvl.completed,
    keys0 := lvl.keys.getD 0 0, keys1 := lvl.keys.getD 1 0, keys2 := lvl.keys.getD 2 0,
    check_count := lvl.check_count,
    has_map := lvl.has_map, unlocked := lvl.unlocked, special := lvl.special,
    checks := lvl.checks.filter (fun c => c ≠ -1) }

/-- Size of the saved `enabled_episodes` JSON array: the largest even index
written is the last below `episode_count`, and JsonCpp sizes the array to
last-index + 1. -/
def enabled_episodes_size (epc : Nat) : Nat :=
  if epc % 2 = 0 then epc - 1 else epc

/-- The `enabled_episodes` array as saved: booleans at even indices below
`episode_count`, nulls (from JsonCpp auto-extension) at odd indices. -/
def save_enabled_episodes (epc : Nat) (eps : List Int) : List (Option Bool) :=
  (List.range (enabled_episodes_size epc)).map fun i =>
    if i % 2 = 0 then some (decide (eps.getD i 0 ≠ 0)) else none

/-- `save_state`, as the document it writes.  Array loops
`for (i < count) append(a[i])` are `List.take count` (the allocations have
exactly `count` entries).  Heretic inventory slots of type 9 (wings,
per-level only) are skipped.  `progressive_locations` iterates the
`std::set` in ascending order. -/
def save_state (g : ap_game_t) (w : ApWorld) : SaveDoc :=
  let ps := w.state.player_state
  { player :=
    { health := ps.health, armor_points := ps.armor_points,
      armor_type := ps.armor_type, backpack := ps.backpack,
      ready_weapon := ps.ready_weapon, kill_count := ps.kill_count,
      item_count := ps.item_count, secret_count := ps.secret_count,
      powers := ps.powers.take (ap_powerup_count g),
      weapon_owned := ps.weapon_owned.take (ap_weapon_count g),
      ammo := ps.ammo.take (ap_ammo_count g),
      inventory := (ps.inventory.take (ap_inventory_count g)).filter
        (fun s => s.1 ≠ 9) },
    episodes := (List.range (ap_episode_count g)).map fun i =>
      (List.range (ap_map_count g)).map fun j =>
        serialize_level (w.state.level_states.getD (i * ap_map_count g + j) default),
    item_queue := w.item_queue,
    ep := w.state.ep,
    enabled_episodes := save_enabled_episodes (ap_episode_count g) w.state.episodes,
    map := w.state.map,
    progressive_locations := w.progressive.sort (· ≤ ·),
    victory := w.state.victory }

/-- Merge of one saved level into the in-memory one (`load_state`'s level
loop body): `completed`, the three key flags, `has_map`, `unlocked`,
`special` are OR-merged; the reads of `check_count` and `checks` are
commented out in the source, so both keep their in-memory values. -/
def load_level (cur : ap_level_state_t) : Option LevelDoc → ap_level_state_t
  | none => cur
  | some d =>
    { cur with
      completed := Int.lor cur.completed d.completed,
      keys := ((cur.keys.set 0 (Int.lor (cur.keys.getD 0 0) d.keys0)).set 1
        (Int.lor (cur.keys.getD 1 0) d.keys1)).set 2
        (Int.lor (cur.keys.getD 2 0) d.keys2),
      has_map := Int.lor cur.has_map d.has_map,
      unlocked := Int.lor cur.unlocked d.unlocked,
      special := Int.lor cur.special d.special }

/-- `load_state` from a parsed document.  Notes tied to the source:
* scalar player fields are read with `json_get_int` (the document always
  carries integers for them, so they overwrite);
* `weapon_owned` is OR-merged, `powers`/`ammo`/inventory overwrite;
* when the loaded backpack flag is set, `max_ammo` is recomputed as
  `max_ammos[i] * (backpack ? 2 : 1)`;
* the `enabled_episodes` loop performs no store at all: the saved values are
  JSON *booleans* and `json_get_int` requires `isInt()`, which is false for
  `booleanValue` (on top of that the loop increments `i` both in the header
  and in `json[...][i++]`, so under either argument-evaluation order no
  integer is ever read) — hence `episodes` is left untouched;
* `item_queue` entries are pushed onto the existing queue, and
  `progressive_locations` entries inserted into the existing set;
* `victory` is OR-merged. -/
def load_state (g : ap_game_t) (doc : SaveDoc) (w : ApWorld) : ApWorld :=
  let ps0 := w.state.player_state
  -- The backpack recomputation runs after the scalar loads, reading the
  -- just-loaded backpack flag, and only touches max_ammo.
  let ps :=
    { ps0 with
      health := doc.player.health, armor_points := doc.player.armor_points,
      armor_type := doc.player.armor_type, backpack := doc.player.backpack,
      ready_weapon := doc.player.ready_weapon, kill_count := doc.player.kill_count,
      item_count := doc.player.item_count, secret_count := doc.player.secret_count,
      powers := loadInts ps0.powers doc.player.powers,
      weapon_owned := loadOrInts ps0.weapon_owned doc.player.weapon_owned,
      ammo := loadInts ps0.ammo doc.player.ammo,
      inventory := loadSlots ps0.inventory doc.player.inventory,
      max_ammo :=
        if doc.player.backpack ≠ 0 then
          loadInts ps0.max_ammo
            ((get_max_ammos g).map (· * (if doc.player.backpack ≠ 0 then 2 else 1)))
        else ps0.max_ammo }
  let mc := ap_map_count g
  let epc := ap_episode_count g
  let levels := mapWithIndex
    (fun k lvl =>
      if k < epc * mc then load_level lvl (doc.episodes.getD (k / mc) [])[k % mc]?
      else lvl)
    w.state.level_states
  { w with
    state :=
      { w.state with
        player_state := ps,
        level_states := levels,
        ep := doc.ep,
        map := doc.map,
        victory := Int.lor w.state.victory doc.victory },
    item_queue := w.item_queue ++ doc.item_queue,
    progressive := w.progressive ∪ doc.progressive_locations.toFinset }

/-! ## Basic list lemmas used throughout -/

theorem loadInts_full : ∀ (cur doc : List Int), cur.length = doc.length →
    loadInts cur doc = doc
  | [], [], _ => rfl
  | [], _ :: _, h => by simp at h
  | _ :: _, [], h => by simp at h
  | _ :: cur, d :: doc, h => by
    simp only [loadInts, List.cons.injEq, true_and]
    exact loadInts_full cur doc (by simpa using h)

theorem loadSlots_full : ∀ (cur doc : List (Int × Int)), cur.length = doc.length →
    loadSlots cur doc = doc
  | [], [], _ => rfl
  | [], _ :: _, h => by simp at h
  | _ :: _, [], h => by simp at h
  | _ :: cur, d :: doc, h => by
    simp only [loadSlots, List.cons.injEq, true_and]
    exact loadSlots_full cur doc (by simpa using h)

theorem loadOrInts_pointwise : ∀ (cur doc : List Int), cur.length = doc.length →
    (∀ i, i < doc.length → Int.lor (cur.getD i 0) (doc.getD i 0) = doc.getD i 0) →
    loadOrInts cur doc = doc
  | [], [], _, _ => rfl
  | [], _ :: _, h, _ => by simp at h
  | _ :: _, [], h, _ => by simp at h
  | c :: cur, d :: doc, h, hp => by
    simp only [loadOrInts, List.cons.injEq]
    refine ⟨hp 0 (by simp), loadOrInts_pointwise cur doc (by simpa using h) ?_⟩
    intro i hi
    exact hp (i + 1) (by simpa using hi)

theorem getD_set_self {α : Type} (l : List α) (n : Nat) (a d : α)
    (h : n < l.length) : (l.set n a).getD n d = a := by
  induction l generalizing n with
  | nil => simp at h
  | cons x xs ih =>
    cases n with
    | zero => rfl
    | succ m => exact ih m (by simpa using h)

theorem getD_set_ne {α : Type} : ∀ (l : List α) (m n : Nat) (a d : α), m ≠ n →
    (l.set m a).getD n d = l.getD n d
  | [], _, _, _, _, _ => by simp [List.set]
  | x :: xs, 0, 0, a, d, h => absurd rfl h
  | x :: xs, 0, k + 1, a, d, _ => rfl
  | x :: xs, m' + 1, 0, a, d, _ => rfl
  | x :: xs, m' + 1, k + 1, a, d, h => getD_set_ne xs m' k a d (by omega)

theorem getD_replicate {α : Type} (c n : Nat) (a d : α) (h : n < c) :
    (List.replicate c a).getD n d = a := by
  induction c generalizing n with
  | zero => omega
  | succ c' ih =>
    cases n with
    | zero => rfl
    | succ m => exact ih m (by omega)

theorem take_set_concat {α : Type} : ∀ (l : List α) (n : Nat) (a : α), n < l.length →
    (l.set n a).take (n + 1) = l.take n ++ [a]
  | [], n, a, h => by simp at h
  | x :: xs, 0, a, _ => by simp
  | x :: xs, n + 1, a, h => by
    simp only [List.set, List.take, List.cons_append, List.cons.injEq, true_and]
    exact take_set_concat xs n a (by simpa using h)

theorem lor_zero_bit (x : Int) (h : x = 0 ∨ x = 1) : Int.lor 0 x = x := by
  rcases h with h | h <;> subst h <;> decide

theorem mapWithIndexFrom_length {α : Type} (f : Nat → α → α) :
    ∀ (i : Nat) (l : List α), (mapWithIndexFrom f i l).length = l.length
  | _, [] => rfl
  | i, _ :: as => by simp [mapWithIndexFrom, mapWithIndexFrom_length f (i + 1) as]

theorem mapWithIndexFrom_getElem? {α : Type} (f : Nat → α → α) :
    ∀ (i : Nat) (l : List α) (k : Nat),
      (mapWithIndexFrom f i l)[k]? = (l[k]?).map (f (i + k))
  | _, [], k => by simp [mapWithIndexFrom]
  | i, a :: as, 0 => by simp [mapWithIndexFrom]
  | i, a :: as, k + 1 => by
    have hik : i + 1 + k = i + (k + 1) := by omega
    simp only [mapWithIndexFrom, List.getElem?_cons_succ]
    rw [mapWithIndexFrom_getElem? f (i + 1) as k, hik]

theorem mapWithIndex_getElem? {α : Type} (f : Nat → α → α) (l : List α) (k : Nat) :
    (mapWithIndex f l)[k]? = (l[k]?).map (f k) := by
  simpa using mapWithIndexFrom_getElem? f 0 l k

/-! ## C4 — unknown item / location ids never mutate state -/

/-- The location id is absent from every row of the nested location table. -/
abbrev LocAbsent (tbl : LocTable) (loc : Int) : Prop :=
  ∀ p ∈ tbl, ∀ q ∈ p.2, ∀ r ∈ q.2, r.2 ≠ loc

theorem scan_idxs_absent (loc e m : Int) (acc : Int × Int × Int) :
    ∀ idxs : List (Int × Int), (∀ r ∈ idxs, r.2 ≠ loc) →
      scan_idxs loc e m acc idxs = acc
  | [], _ => rfl
  | (i, id) :: rest, h => by
    have hne : id ≠ loc := h (i, id) (by simp)
    have h2 : scan_idxs loc e m acc rest = acc :=
      scan_idxs_absent loc e m acc rest (fun r hr => h r (by simp [hr]))
    simp [scan_idxs, hne, h2]

theorem scan_maps_absent (loc e : Int) (acc : Int × Int × Int) (hacc : acc.1 = -1) :
    ∀ maps : List (Int × List (Int × Int)), (∀ q ∈ maps, ∀ r ∈ q.2, r.2 ≠ loc) →
      scan_maps loc e acc maps = acc
  | [], _ => rfl
  | (m, idxs) :: rest, h => by
    have h1 : scan_idxs loc e m acc idxs = acc :=
      scan_idxs_absent loc e m acc idxs (fun r hr => h (m, idxs) (by simp) r hr)
    have h2 : scan_maps loc e acc rest = acc :=
      scan_maps_absent loc e acc hacc rest (fun q hq => h q (by simp [hq]))
    simp [scan_maps, h1, hacc, h2]

theorem find_location_impl_absent (loc : Int) (acc : Int × Int × Int) (hacc : acc.1 = -1) :
    ∀ tbl : LocTable, LocAbsent tbl loc →
      find_location_impl loc acc tbl = acc
  | [], _ => rfl
  | (e, maps) :: rest, h => by
    have h1 : scan_maps loc e acc maps = acc :=
      scan_maps_absent loc e acc hacc maps (fun q hq r hr => h (e, maps) (by simp) q hq r hr)
    have h2 : find_location_impl loc acc rest = acc :=
      find_location_impl_absent loc acc hacc rest
        (fun p hp q hq r hr => h p (by simp [hp]) q hq r hr)
    simp [find_location_impl, h1, hacc, h2]

theorem find_location_absent (tbl : LocTable) (loc : Int) (h : LocAbsent tbl loc) :
    find_location tbl loc = ((-1, -1, -1), false) := by
  simp [find_location, find_location_impl_absent loc (-1, -1, -1) rfl tbl h]

/-- C4: an item id absent from the selected game's item table leaves the
whole world unchanged (`f_itemrecv` returns before any mutation), and a
location id absent from the location table leaves the world unchanged
(`f_locrecv` only prints). -/
theorem unknown_ids_never_mutate (cat : Catalogs) (g : ap_game_t) (mc : Nat)
    (w : ApWorld) (item_id loc_id : Int) (notify : Bool)
    (hitem : alookup item_id (get_item_type_table cat g) = none)
    (hloc : LocAbsent (get_location_table cat g) loc_id) :
    f_itemrecv cat g mc w item_id notify = w ∧ f_locrecv cat g mc w loc_id = w := by
  constructor
  · simp [f_itemrecv, hitem]
  · simp [f_locrecv, find_location_absent _ _ hloc]

/-- Example catalog used by the witnesses: a small instance of the shape of
the external `*_def.h` tables. -/
def exCat : Catalogs :=
  { ap_doom_item_table := [(100, ⟨5, 1, 1⟩), (101, ⟨8, 1, 1⟩), (102, ⟨-1, 1, 2⟩)],
    ap_doom2_item_table := [(200, ⟨8, 1, 1⟩)],
    ap_heretic_item_table := [(300, ⟨8, 1, 1⟩)],
    ap_doom_location_table :=
      [(1, [(1, [(0, 7000), (1, 7001), (-1, 7999)]), (2, [(0, 7010)])])],
    ap_doom2_location_table := [(1, [(1, [(0, 8000), (-1, 8999)])])],
    ap_heretic_location_table := [(1, [(1, [(0, 9000)])])],
    ap_heretic_type_sprites := [(8, "BAGH"), (5, "BKYY")],
    doom_level_names := fun _ _ => "Hangar",
    doom2_level_names := fun _ _ => "Entryway",
    heretic_level_names := fun _ _ => "The Docks" }

/-- Witness for C4 at a concrete unknown id. -/
theorem unknown_ids_never_mutate_witness :
    alookup 555 (get_item_type_table exCat ap_game_t.doom) = none
  ∧ LocAbsent (get_location_table exCat ap_game_t.doom) 555
  ∧ f_itemrecv exCat ap_game_t.doom 9 (init_world ap_game_t.doom 4) 555 true
      = init_world ap_game_t.doom 4
  ∧ f_locrecv exCat ap_game_t.doom 9 (init_world ap_game_t.doom 4) 555
      = init_world ap_game_t.doom 4 := by
  have h := unknown_ids_never_mutate exCat ap_game_t.doom 9
    (init_world ap_game_t.doom 4) 555 555 true (by decide) (by decide)
  exact ⟨by decide, by decide, h.1, h.2⟩

/-! ## C6 — `apdoom_check_location` always forwards on a catalog hit -/

/-- C6: a miss in any of the three nested lookups is a no-op (nothing sent);
a hit always appends exactly one `AP_SendItem(id)` to the outbound log and
changes nothing else — in particular this holds when `index` is already in
the level's checked list (the duplicate case only prints a warning) and when
`index = -1` (level completion), since the hit branch does not inspect the
checked state before sending. -/
theorem check_location_spec (cat : Catalogs) (g : ap_game_t) (mc : Nat)
    (w : ApWorld) (ep map index : Int) :
    (alookup ep (get_location_table cat g) = none →
      apdoom_check_location cat g mc w ep map index = w)
  ∧ (∀ mtbl, alookup ep (get_location_table cat g) = some mtbl →
      alookup map mtbl = none → apdoom_check_location cat g mc w ep map index = w)
  ∧ (∀ mtbl itbl, alookup ep (get_location_table cat g) = some mtbl →
      alookup map mtbl = some itbl → alookup index itbl = none →
      apdoom_check_location cat g mc w ep map index = w)
  ∧ (∀ mtbl itbl id, alookup ep (get_location_table cat g) = some mtbl →
      alookup map mtbl = some itbl → alookup index itbl = some id →
      apdoom_check_location cat g mc w ep map index
        = { w with log := w.log ++ [ApEvent.send_item id] }) := by
  refine ⟨fun h1 => ?_, fun mtbl h1 h2 => ?_, fun mtbl itbl h1 h2 h3 => ?_,
    fun mtbl itbl id h1 h2 h3 => ?_⟩
  · simp [apdoom_check_location, h1]
  · simp [apdoom_check_location, h1, h2]
  · simp [apdoom_check_location, h1, h2, h3]
  · simp [apdoom_check_location, h1, h2, h3]

/-- A world whose level (1,1) already has local index 0 checked. -/
def ckLevel : ap_level_state_t :=
  { init_level 4 with check_count := 1, checks := [0, -1, -1, -1] }

def ckWorld : ApWorld :=
  let base := init_world ap_game_t.doom 4
  { base with state :=
      { base.state with level_states := base.state.level_states.set 0 ckLevel } }

/-- Witness for C6: index 0 of (1,1) resolves to id 7000 in the example
catalog and is sent even though it is already in the checked list of
`ckWorld`; index -1 resolves to id 7999 and is sent; episode 5 is absent
and is a no-op. -/
theorem check_location_spec_witness :
    apdoom_check_location exCat ap_game_t.doom 9 ckWorld 1 1 0
      = { ckWorld with log := [ApEvent.send_item 7000] }
  ∧ apdoom_check_location exCat ap_game_t.doom 9 (init_world ap_game_t.doom 4) 1 1 (-1)
      = { init_world ap_game_t.doom 4 with log := [ApEvent.send_item 7999] }
  ∧ apdoom_check_location exCat ap_game_t.doom 9 (init_world ap_game_t.doom 4) 5 1 0
      = init_world ap_game_t.doom 4 := by
  refine ⟨?_, ?_, ?_⟩
  · exact (check_location_spec exCat ap_game_t.doom 9 ckWorld 1 1 0).2.2.2
      [(1, [(0, 7000), (1, 7001), (-1, 7999)]), (2, [(0, 7010)])]
      [(0, 7000), (1, 7001), (-1, 7999)] 7000 (by decide) (by decide) (by decide)
  · exact (check_location_spec exCat ap_game_t.doom 9 _ 1 1 (-1)).2.2.2
      [(1, [(0, 7000), (1, 7001), (-1, 7999)]), (2, [(0, 7010)])]
      [(0, 7000), (1, 7001), (-1, 7999)] 7999 (by decide) (by decide) (by decide)
  · exact (check_location_spec exCat ap_game_t.doom 9 _ 5 1 0).1 (by decide)

/-! ## C2 — victory check -/

theorem all_enabled_completed_iff (epc mc : Nat) (eps : List Int)
    (ls : List ap_level_state_t) :
    all_enabled_completed epc mc eps ls = true ↔
      ∀ ep < epc, eps.getD ep 0 ≠ 0 →
        ∀ m < mc, (ls.getD (ep * mc + m) default).completed ≠ 0 := by
  unfold all_enabled_completed
  rw [List.all_eq_true]
  constructor
  · intro h ep hep hene m hm
    have h1 := h ep (List.mem_range.mpr hep)
    rw [if_neg hene, List.all_eq_true] at h1
    exact of_decide_eq_true (h1 m (List.mem_range.mpr hm))
  · intro h ep hep
    by_cases he : eps.getD ep 0 = 0
    · rw [if_pos he]
    · rw [if_neg he, List.all_eq_true]
      intro m hm
      exact decide_eq_true (h ep (List.mem_range.mp hep) he m (List.mem_range.mp hm))

/-- C2: `apdoom_check_victory` is the identity when the victory flag is
already set; otherwise it sets the flag, calls `AP_StoryComplete` and then
the victory callback exactly when every map of every enabled episode is
completed (disabled episodes are skipped by the scan), and is the identity
otherwise. -/
theorem check_victory_spec (epc mc : Nat) (w : ApWorld) :
    (w.state.victory ≠ 0 → apdoom_check_victory epc mc w = w)
  ∧ (w.state.victory = 0 →
      (((apdoom_check_victory epc mc w).state.victory = 1
        ∧ (apdoom_check_victory epc mc w).log
            = w.log ++ [ApEvent.story_complete, ApEvent.victory_cb])
       ↔ (∀ ep < epc, w.state.episodes.getD ep 0 ≠ 0 →
            ∀ m < mc,
              (w.state.level_states.getD (ep * mc + m) default).completed ≠ 0)))
  ∧ (w.state.victory = 0 →
      ¬ (∀ ep < epc, w.state.episodes.getD ep 0 ≠ 0 →
           ∀ m < mc,
             (w.state.level_states.getD (ep * mc + m) default).completed ≠ 0) →
      apdoom_check_victory epc mc w = w) := by
  refine ⟨fun h => by simp [apdoom_check_victory, h], fun h => ?_, fun h hnot => ?_⟩
  · by_cases hc : ∀ ep < epc, w.state.episodes.getD ep 0 ≠ 0 →
        ∀ m < mc, (w.state.level_states.getD (ep * mc + m) default).completed ≠ 0
    · have hcb := (all_enabled_completed_iff epc mc w.state.episodes w.state.level_states).mpr hc
      have hr : apdoom_check_victory epc mc w
          = { w with state := { w.state with victory := 1 },
                     log := w.log ++ [ApEvent.story_complete, ApEvent.victory_cb] } := by
        simp [apdoom_check_victory, h, hcb]
      rw [hr]
      exact iff_of_true ⟨rfl, rfl⟩ hc
    · have hcb : all_enabled_completed epc mc w.state.episodes w.state.level_states = false := by
        rw [← Bool.not_eq_true, all_enabled_completed_iff]
        exact hc
      have hr : apdoom_check_victory epc mc w = w := by
        simp [apdoom_check_victory, h, hcb]
      rw [hr]
      constructor
      · intro hx
        rw [h] at hx
        exact absurd hx.1 (by decide)
      · intro hp
        exact absurd hp hc
  · have hcb : all_enabled_completed epc mc w.state.episodes w.state.level_states = false := by
      rw [← Bool.not_eq_true, all_enabled_completed_iff]
      exact hnot
    simp [apdoom_check_victory, h, hcb]

/-- A tiny world with one enabled episode of one completed map, used as the
victory witness. -/
def vicWorld : ApWorld :=
  { state :=
    { player_state := init_player ap_game_t.doom,
      level_states := [{ (default : ap_level_state_t) with completed := 1 }],
      episodes := [1], ep := 0, map := 0, difficulty := 0,
      random_monsters := 0, random_items := 0, flip_levels := 0,
      two_ways_keydoors := 0, victory := 0 },
    item_queue := [], progressive := ∅, icons := [], in_game := true, log := [] }

/-- Witness for C2: at `vicWorld` every map of every enabled episode is
completed, so the flag is set and both completion calls fire. -/
theorem check_victory_spec_witness :
    (apdoom_check_victory 1 1 vicWorld).state.victory = 1
  ∧ (apdoom_check_victory 1 1 vicWorld).log
      = [ApEvent.story_complete, ApEvent.victory_cb] := by
  have h := ((check_victory_spec 1 1 vicWorld).2.1 (by decide)).mpr (by decide)
  simpa using h

/-! ## C8 — seeded level flips are a deterministic function of the name -/

theorem hash_seed_eq_spec (s : List Nat) : hash_seed s = hash_seed_spec s := by
  unfold hash_seed hash_seed_spec
  congr 1
  funext h c
  rw [Nat.shiftLeft_eq]
  ring_nf

/-- C8: with flip mode 2 every level's flip flag equals
`rand_seq(seed)(arena index) % 2` where the seed is the base-33/5381
polynomial hash of the save-directory name reduced to `unsigned int` for
`srand` — a deterministic function of the directory-name bytes, the
profile's level count and the pseudo-random generator alone. -/
theorem seeded_flips_deterministic (epc mc : Nat) (rng : Nat → Nat → Nat)
    (name : List Nat) (ls : List ap_level_state_t) (k : Nat)
    (hk : k < ls.length) (hk2 : k < epc * mc) :
    ((apply_flips epc mc 2 rng name ls).getD k default).flipped
      = Int.ofNat (rng (hash_seed_spec name % 2 ^ 32) k % 2) := by
  have hget : ls[k]? = some (ls.getD k default) := by
    rw [List.getD_eq_getElem?_getD, List.getElem?_eq_getElem hk]
    rfl
  show ((mapWithIndex
      (fun k lvl =>
        if k < epc * mc then
          { lvl with flipped := Int.ofNat (rng (hash_seed name % 2 ^ 32) k % 2) }
        else lvl) ls).getD k default).flipped = _
  rw [List.getD_eq_getElem?_getD, mapWithIndex_getElem?, hget]
  simp [hk2, hash_seed_eq_spec]

/-- The bytes of "AP_testseed_41424344", the spec's example directory name. -/
def test_dir_name : List Nat :=
  [65, 80, 95, 116, 101, 115, 116, 115, 101, 101, 100, 95,
   52, 49, 52, 50, 52, 51, 52, 52]

/-- Witness for C8 at the example name: level 0 of a 1-episode, 2-map
profile is flipped, because the 64-bit hash 16841272826985459407 reduces to
the odd seed 1105735375 and the identity-increment generator returns it. -/
theorem seeded_flips_deterministic_witness :
    ((apply_flips 1 2 2 (fun s k => s + k) test_dir_name
        [default, default]).getD 0 default).flipped = 1 := by
  rw [seeded_flips_deterministic 1 2 (fun s k => s + k) test_dir_name
    [default, default] 0 (by decide) (by decide)]
  decide

/-! ## C5 — backpack doubles every max-ammo entry -/

/-- In every branch of `f_itemrecv` after a successful item lookup, the
final `ap_state` is the one produced by the mutation phase. -/
theorem f_itemrecv_state (cat : Catalogs) (g : ap_game_t) (mc : Nat)
    (w : ApWorld) (item_id : Int) (item : ap_item_t) (notify : Bool)
    (hit : alookup item_id (get_item_type_table cat g) = some item) :
    (f_itemrecv cat g mc w item_id notify).state
      = (item_apply cat g mc w.state item).1 := by
  simp only [f_itemrecv, hit]
  split
  · rfl
  · split
    · rfl
    · split <;> rfl

theorem item_apply_backpack (cat : Catalogs) (g : ap_game_t) (mc : Nat)
    (st : ap_state_t) (item : ap_item_t) (hdt : item.doom_type = 8)
    (hlen : st.player_state.max_ammo.length = (get_max_ammos g).length) :
    (item_apply cat g mc st item).1.player_state.backpack = 1
  ∧ (item_apply cat g mc st item).1.player_state.max_ammo
      = (get_max_ammos g).map (· * 2) := by
  have hfull : loadInts st.player_state.max_ammo ((get_max_ammos g).map (· * 2))
      = (get_max_ammos g).map (· * 2) :=
    loadInts_full _ _ (by simp [hlen])
  rcases halw : alookup (8 : Int) (get_weapons_map g) with _ | wi <;>
    simp [item_apply, hdt, halw, hfull]

/-- C5: after `f_itemrecv` delivers an item of object type 8 (the backpack)
the backpack flag is set and every max-ammo entry is exactly twice the
catalog base value; and after `load_state` restores a set backpack flag the
same recomputation applies. -/
theorem backpack_invariant (cat : Catalogs) (g : ap_game_t) (mc : Nat)
    (w : ApWorld) (item_id : Int) (item : ap_item_t) (notify : Bool)
    (doc : SaveDoc) (w0 : ApWorld)
    (hit : alookup item_id (get_item_type_table cat g) = some item)
    (hdt : item.doom_type = 8)
    (hlen : w.state.player_state.max_ammo.length = (get_max_ammos g).length)
    (hbp : doc.player.backpack ≠ 0)
    (hlen0 : w0.state.player_state.max_ammo.length = (get_max_ammos g).length) :
    ((f_itemrecv cat g mc w item_id notify).state.player_state.backpack = 1
     ∧ (f_itemrecv cat g mc w item_id notify).state.player_state.max_ammo
         = (get_max_ammos g).map (· * 2))
  ∧ ((load_state g doc w0).state.player_state.backpack = doc.player.backpack
     ∧ (load_state g doc w0).state.player_state.max_ammo
         = (get_max_ammos g).map (· * 2)) := by
  constructor
  · rw [f_itemrecv_state cat g mc w item_id item notify hit]
    exact item_apply_backpack cat g mc w.state item hdt hlen
  · have hfull : loadInts w0.state.player_state.max_ammo ((get_max_ammos g).map (· * 2))
        = (get_max_ammos g).map (· * 2) :=
      loadInts_full _ _ (by simp [hlen0])
    simp [load_state, hbp, hfull]

/-- Witness for C5: item 101 of the doom table is the backpack; delivering
it to a fresh doom world doubles [200, 50, 300, 50] to [400, 100, 600, 200];
loading a document whose player section has the backpack flag set does the
same to a fresh world. -/
theorem backpack_invariant_witness :
    ((f_itemrecv exCat ap_game_t.doom 9 (init_world ap_game_t.doom 4) 101
        false).state.player_state.max_ammo = [400, 100, 600, 100]
     ∧ (f_itemrecv exCat ap_game_t.doom 9 (init_world ap_game_t.doom 4) 101
        false).state.player_state.backpack = 1)
  ∧ ((load_state ap_game_t.doom
        (save_state ap_game_t.doom
          { init_world ap_game_t.doom 4 with state :=
            { (init_world ap_game_t.doom 4).state with player_state :=
              { (init_world ap_game_t.doom 4).state.player_state with backpack := 1 } } })
        (init_world ap_game_t.doom 4)).state.player_state.max_ammo
      = [400, 100, 600, 100]) := by
  have h := backpack_invariant exCat ap_game_t.doom 9 (init_world ap_game_t.doom 4)
    101 ⟨8, 1, 1⟩ false
    (save_state ap_game_t.doom
      { init_world ap_game_t.doom 4 with state :=
        { (init_world ap_game_t.doom 4).state with player_state :=
          { (init_world ap_game_t.doom 4).state.player_state with backpack := 1 } } })
    (init_world ap_game_t.doom 4)
    (by decide) rfl (by decide) (by decide) (by decide)
  refine ⟨⟨?_, h.1.1⟩, ?_⟩
  · rw [h.1.2]
    decide
  · rw [h.2.2]
    decide

/-! ## C10 — the sprite lookup always uses the Heretic table -/

/-- C10: for **every** selected game `g` — doom and doom2 included — the
notification-icon decision of `f_itemrecv` is made by looking the item's
object type up in `ap_heretic_type_sprites`; unlike the item, location, key
and weapon tables, this lookup is not switched on `g`. -/
theorem sprite_lookup_not_switched (cat : Catalogs) (g : ap_game_t) (mc : Nat)
    (w : ApWorld) (item_id : Int) (item : ap_item_t)
    (hit : alookup item_id (get_item_type_table cat g) = some item)
    (hin : w.in_game = true) :
    (f_itemrecv cat g mc w item_id true).icons
      = w.icons ++
        (match alookup item.doom_type cat.ap_heretic_type_sprites with
         | some spr => [mk_notif spr (item_apply cat g mc w.state item).2]
         | none => []) := by
  simp only [f_itemrecv, hit]
  rw [if_neg (by simp), if_neg (by simp [hin])]
  rcases hspr : alookup item.doom_type cat.ap_heretic_type_sprites with _ | spr <;>
    simp [hspr]

def igWorld : ApWorld :=
  { init_world ap_game_t.doom 4 with in_game := true }

/-- Witness for C10: with the game set to doom, delivering doom item 101
(object type 8) creates an icon because type 8 is in the *Heretic* sprite
table of the example catalog. -/
theorem sprite_lookup_not_switched_witness :
    (f_itemrecv exCat ap_game_t.doom 9 igWorld 101 true).icons
      = [mk_notif "BAGH" none] := by
  rw [sprite_lookup_not_switched exCat ap_game_t.doom 9 igWorld 101 ⟨8, 1, 1⟩
    (by decide) rfl]
  decide

/-! ## C3 / C9 — checked-list lemmas and `find_location` soundness -/

/-- The scanned region of a level's checked list: `checks[0 .. check_count)`. -/
def checked_pfx (w : ApWorld) (k : Nat) : List Int :=
  let lvl := w.state.level_states.getD k default
  lvl.checks.take lvl.check_count

/-- The world after `f_locrecv`'s append:
`checks[check_count] = index; check_count++` on the level at arena index `k`. -/
def append_check (w : ApWorld) (k : Nat) (index : Int) : ApWorld :=
  let lvl := w.state.level_states.getD k default
  let lvl' := { lvl with checks := lvl.checks.set lvl.check_count index,
                         check_count := lvl.check_count + 1 }
  { w with state := { w.state with level_states := w.state.level_states.set k lvl' } }

theorem is_loc_checked_iff (lvl : ap_level_state_t) (index : Int) :
    is_loc_checked lvl index = true ↔ index ∈ lvl.checks.take lvl.check_count := by
  unfold is_loc_checked
  rw [List.any_eq_true]
  constructor
  · rintro ⟨c, hc, he⟩
    rw [beq_iff_eq] at he
    exact he ▸ hc
  · intro h
    exact ⟨index, h, by simp⟩

theorem is_loc_checked_false_iff (lvl : ap_level_state_t) (index : Int) :
    is_loc_checked lvl index = false ↔ index ∉ lvl.checks.take lvl.check_count := by
  rw [← is_loc_checked_iff lvl index]
  cases h : is_loc_checked lvl index <;> simp [h]

theorem f_locrecv_stay (cat : Catalogs) (g : ap_game_t) (mc : Nat) (w : ApWorld)
    (loc_id ep map index : Int)
    (hfind : find_location (get_location_table cat g) loc_id = ((ep, map, index), true))
    (hch : is_loc_checked (w.state.level_states.getD (arena mc ep map) default) index
            = true) :
    f_locrecv cat g mc w loc_id = w := by
  rw [List.getD_eq_getElem?_getD] at hch
  simp [f_locrecv, hfind, hch]

theorem f_locrecv_append (cat : Catalogs) (g : ap_game_t) (mc : Nat) (w : ApWorld)
    (loc_id ep map index : Int)
    (hfind : find_location (get_location_table cat g) loc_id = ((ep, map, index), true))
    (hch : is_loc_checked (w.state.level_states.getD (arena mc ep map) default) index
            = false)
    (hpos : 0 ≤ index) :
    f_locrecv cat g mc w loc_id = append_check w (arena mc ep map) index := by
  have hnlt : ¬ index < 0 := not_lt.mpr hpos
  rw [List.getD_eq_getElem?_getD] at hch
  simp [f_locrecv, hfind, hch, hnlt, append_check]

theorem append_check_level (w : ApWorld) (k : Nat) (index : Int)
    (hk : k < w.state.level_states.length) :
    (append_check w k index).state.level_states.getD k default
      = (let lvl := w.state.level_states.getD k default
         { lvl with checks := lvl.checks.set lvl.check_count index,
                    check_count := lvl.check_count + 1 }) := by
  unfold append_check
  exact getD_set_self _ _ _ _ hk

theorem checked_pfx_append (w : ApWorld) (k : Nat) (index : Int)
    (hk : k < w.state.level_states.length)
    (hcc : (w.state.level_states.getD k default).check_count
            < (w.state.level_states.getD k default).checks.length) :
    checked_pfx (append_check w k index) k = checked_pfx w k ++ [index] := by
  unfold checked_pfx
  rw [append_check_level w k index hk]
  exact take_set_concat _ _ _ hcc

/-- C3: delivering the same location-checked event twice equals delivering
it once; the scanned checked region stays duplicate-free; and the `-1`
sentinel never enters it (a resolved negative index returns before the
append). -/
theorem locrecv_idempotent (cat : Catalogs) (g : ap_game_t) (mc : Nat)
    (w : ApWorld) (loc_id ep map index : Int)
    (hfind : find_location (get_location_table cat g) loc_id = ((ep, map, index), true))
    (hk : arena mc ep map < w.state.level_states.length)
    (hcc : (w.state.level_states.getD (arena mc ep map) default).check_count
            < (w.state.level_states.getD (arena mc ep map) default).checks.length)
    (hnd : (checked_pfx w (arena mc ep map)).Nodup)
    (hs : (-1 : Int) ∉ checked_pfx w (arena mc ep map)) :
    f_locrecv cat g mc (f_locrecv cat g mc w loc_id) loc_id = f_locrecv cat g mc w loc_id
  ∧ (checked_pfx (f_locrecv cat g mc w loc_id) (arena mc ep map)).Nodup
  ∧ (-1 : Int) ∉ checked_pfx (f_locrecv cat g mc w loc_id) (arena mc ep map) := by
  by_cases hch : is_loc_checked (w.state.level_states.getD (arena mc ep map) default) index
      = true
  · have hf := f_locrecv_stay cat g mc w loc_id ep map index hfind hch
    rw [hf]
    exact ⟨hf, hnd, hs⟩
  · have hch' : is_loc_checked (w.state.level_states.getD (arena mc ep map) default) index
        = false := by
      cases h : is_loc_checked (w.state.level_states.getD (arena mc ep map) default) index
      · rfl
      · exact absurd h hch
    by_cases hneg : index < 0
    · have hf : f_locrecv cat g mc w loc_id = w := by
        simp [f_locrecv, hfind, hch', hneg]
      rw [hf]
      exact ⟨hf, hnd, hs⟩
    · have hpos : 0 ≤ index := not_lt.mp hneg
      have hf := f_locrecv_append cat g mc w loc_id ep map index hfind hch' hpos
      have hpfx := checked_pfx_append w (arena mc ep map) index hk hcc
      have hmem : index ∉ checked_pfx w (arena mc ep map) :=
        (is_loc_checked_false_iff _ _).mp hch'
      have hch2 : is_loc_checked
          ((append_check w (arena mc ep map) index).state.level_states.getD
            (arena mc ep map) default) index = true := by
        rw [is_loc_checked_iff]
        show index ∈ checked_pfx (append_check w (arena mc ep map) index) (arena mc ep map)
        rw [hpfx]
        simp
      refine ⟨?_, ?_, ?_⟩
      · rw [hf]
        exact f_locrecv_stay cat g mc _ loc_id ep map index hfind hch2
      · rw [hf, hpfx, List.nodup_append]
        refine ⟨hnd, by simp, ?_⟩
        intro a ha hb
        rw [List.mem_singleton] at hb
        subst hb
        exact hmem ha
      · rw [hf, hpfx]
        intro hmm
        rcases List.mem_append.mp hmm with h1 | h1
        · exact hs h1
        · rw [List.mem_singleton] at h1
          omega

/-- Witness for C3: location id 7001 of the example doom catalog resolves to
(1, 1, 1); delivered twice to a fresh world it equals one delivery, and the
checked region stays duplicate- and sentinel-free. -/
theorem locrecv_idempotent_witness :
    f_locrecv exCat ap_game_t.doom 9
        (f_locrecv exCat ap_game_t.doom 9 (init_world ap_game_t.doom 4) 7001) 7001
      = f_locrecv exCat ap_game_t.doom 9 (init_world ap_game_t.doom 4) 7001
  ∧ (checked_pfx (f_locrecv exCat ap_game_t.doom 9 (init_world ap_game_t.doom 4) 7001)
      (arena 9 1 1)).Nodup
  ∧ (-1 : Int) ∉ checked_pfx
      (f_locrecv exCat ap_game_t.doom 9 (init_world ap_game_t.doom 4) 7001)
      (arena 9 1 1) := by
  exact locrecv_idempotent exCat ap_game_t.doom 9 (init_world ap_game_t.doom 4)
    7001 1 1 1 (by decide) (by decide) (by decide) (by decide) (by decide)

/-! ## C9 — the append writes `checks[check_count]`, in bounds only while
`check_count < AP_CHECK_MAX` -/

/-- Key-uniqueness of the location table (a `std::map` guarantee). -/
abbrev TblWF (tbl : LocTable) : Prop :=
  (tbl.map Prod.fst).Nodup ∧ ∀ p ∈ tbl, (p.2.map Prod.fst).Nodup

theorem alookup_of_mem_nodup {α : Type} (l : List (Int × α)) (k : Int) (v : α)
    (hnd : (l.map Prod.fst).Nodup) (hm : (k, v) ∈ l) : alookup k l = some v := by
  induction l with
  | nil => simp at hm
  | cons hd tl ih =>
    obtain ⟨k', v'⟩ := hd
    simp only [List.map_cons, List.nodup_cons] at hnd
    rcases List.mem_cons.mp hm with he | ht
    · cases he
      simp [alookup]
    · have hk : k' ≠ k := by
        intro hkk
        subst hkk
        exact hnd.1 (List.mem_map.mpr ⟨(k', v), ht, rfl⟩)
      simp only [alookup, if_neg hk]
      exact ih hnd.2 ht

theorem scan_idxs_spec (loc e m : Int) (acc : Int × Int × Int) :
    ∀ idxs : List (Int × Int), scan_idxs loc e m acc idxs = acc
      ∨ ∃ i, (i, loc) ∈ idxs ∧ scan_idxs loc e m acc idxs = (e, m, i)
  | [] => Or.inl rfl
  | (i, id) :: rest => by
    by_cases hid : id = loc
    · subst hid
      exact Or.inr ⟨i, by simp, by simp [scan_idxs]⟩
    · rcases scan_idxs_spec loc e m acc rest with h | ⟨i', hm, he⟩
      · exact Or.inl (by simp [scan_idxs, hid, h])
      · exact Or.inr ⟨i', by simp [hm], by simp [scan_idxs, hid, he]⟩

theorem scan_maps_spec (loc e : Int) :
    ∀ (maps : List (Int × List (Int × Int))) (acc : Int × Int × Int),
      scan_maps loc e acc maps = acc
      ∨ ∃ m idxs i, (m, idxs) ∈ maps ∧ (i, loc) ∈ idxs
          ∧ scan_maps loc e acc maps = (e, m, i)
  | [], acc => Or.inl rfl
  | (m, idxs) :: rest, acc => by
    rcases scan_idxs_spec loc e m acc idxs with h1 | ⟨i, hm, he⟩
    · by_cases hb : acc.1 = -1
      · rcases scan_maps_spec loc e rest acc with h2 | ⟨m', idxs', i', hmm, hii, hee⟩
        · exact Or.inl (by simp [scan_maps, h1, hb, h2])
        · exact Or.inr ⟨m', idxs', i', by simp [hmm], hii, by simp [scan_maps, h1, hb, hee]⟩
      · exact Or.inl (by simp [scan_maps, h1, hb])
    · by_cases hb : e = -1
      · rcases scan_maps_spec loc e rest (e, m, i) with h2 | ⟨m', idxs', i', hmm, hii, hee⟩
        · exact Or.inr ⟨m, idxs, i, by simp, hm, by subst hb; simp [scan_maps, he, h2]⟩
        · exact Or.inr ⟨m', idxs', i', by simp [hmm], hii,
            by subst hb; simp [scan_maps, he, hee]⟩
      · exact Or.inr ⟨m, idxs, i, by simp, hm, by simp [scan_maps, he, hb]⟩

theorem find_location_impl_spec (loc : Int) :
    ∀ (tbl : LocTable) (acc : Int × Int × Int),
      find_location_impl loc acc tbl = acc
      ∨ ∃ e maps m idxs i, (e, maps) ∈ tbl ∧ (m, idxs) ∈ maps ∧ (i, loc) ∈ idxs
          ∧ find_location_impl loc acc tbl = (e, m, i)
  | [], acc => Or.inl rfl
  | (e, maps) :: rest, acc => by
    rcases scan_maps_spec loc e maps acc with h1 | ⟨m, idxs, i, hm1, hm2, he⟩
    · by_cases hb : acc.1 = -1
      · rcases find_location_impl_spec loc rest acc with h2 | ⟨e', maps', m', idxs', i', k1, k2, k3, k4⟩
        · exact Or.inl (by simp [find_location_impl, h1, hb, h2])
        · exact Or.inr ⟨e', maps', m', idxs', i', by simp [k1], k2, k3,
            by simp [find_location_impl, h1, hb, k4]⟩
      · exact Or.inl (by simp [find_location_impl, h1, hb])
    · by_cases hb : e = -1
      · rcases find_location_impl_spec loc rest (e, m, i) with h2 | ⟨e', maps', m', idxs', i', k1, k2, k3, k4⟩
        · exact Or.inr ⟨e, maps, m, idxs, i, by simp, hm1, hm2,
            by subst hb; simp [find_location_impl, he, h2]⟩
        · exact Or.inr ⟨e', maps', m', idxs', i', by simp [k1], k2, k3,
            by subst hb; simp [find_location_impl, he, k4]⟩
      · exact Or.inr ⟨e, maps, m, idxs, i, by simp, hm1, hm2,
          by simp [find_location_impl, he, hb]⟩

theorem find_location_found (tbl : LocTable) (loc ep map index : Int)
    (h : find_location tbl loc = ((ep, map, index), true)) :
    ∃ maps idxs, (ep, maps) ∈ tbl ∧ (map, idxs) ∈ maps ∧ (index, loc) ∈ idxs := by
  have h1 : find_location_impl loc (-1, -1, -1) tbl = (ep, map, index) :=
    congrArg Prod.fst h
  have h2 : decide ((find_location_impl loc (-1, -1, -1) tbl).1 > 0) = true :=
    congrArg Prod.snd h
  rcases find_location_impl_spec loc tbl (-1, -1, -1) with
    he | ⟨e, maps, m, idxs, i, hm1, hm2, hm3, heq⟩
  · rw [he] at h2
    simp at h2
  · rw [heq] at h1
    rw [Prod.mk.injEq, Prod.mk.injEq] at h1
    obtain ⟨rfl, rfl, rfl⟩ := h1
    exact ⟨maps, idxs, hm1, hm2, hm3⟩

/-- The nonnegative local indices the catalog can deliver for `(ep, map)`. -/
def level_index_set (tbl : LocTable) (ep map : Int) : Finset Int :=
  (((alookup map ((alookup ep tbl).getD [])).getD []).map Prod.fst).toFinset.filter
    (fun i => 0 ≤ i)

theorem found_mem_level_index_set (tbl : LocTable) (loc ep map index : Int)
    (hwf : TblWF tbl)
    (h : find_location tbl loc = ((ep, map, index), true))
    (hpos : 0 ≤ index) :
    index ∈ level_index_set tbl ep map := by
  obtain ⟨maps, idxs, hm1, hm2, hm3⟩ := find_location_found tbl loc ep map index h
  have ha1 : alookup ep tbl = some maps := alookup_of_mem_nodup tbl ep maps hwf.1 hm1
  have ha2 : alookup map maps = some idxs :=
    alookup_of_mem_nodup maps map idxs (hwf.2 (ep, maps) hm1) hm2
  unfold level_index_set
  rw [ha1, Option.getD_some, ha2, Option.getD_some, Finset.mem_filter,
    List.mem_toFinset]
  exact ⟨List.mem_map.mpr ⟨(index, loc), hm3, rfl⟩, hpos⟩

/-- C9: on the append path of `f_locrecv` (resolved nonnegative index not
yet checked), if the scanned checked region is duplicate-free, drawn from
the catalog's index set for that level, and that set has at most
`AP_CHECK_MAX` (= the `checks` capacity) elements, then
`check_count < AP_CHECK_MAX` — the write `checks[check_count] = index` is in
bounds — and all of these invariants still hold afterwards with
`check_count ≤ AP_CHECK_MAX`. -/
theorem locrecv_append_in_bounds (cat : Catalogs) (g : ap_game_t) (mc CMAX : Nat)
    (w : ApWorld) (loc_id ep map index : Int)
    (hfind : find_location (get_location_table cat g) loc_id = ((ep, map, index), true))
    (hwf : TblWF (get_location_table cat g))
    (hpos : 0 ≤ index)
    (hk : arena mc ep map < w.state.level_states.length)
    (hch : is_loc_checked (w.state.level_states.getD (arena mc ep map) default) index
            = false)
    (hlen : (w.state.level_states.getD (arena mc ep map) default).checks.length = CMAX)
    (hccle : (w.state.level_states.getD (arena mc ep map) default).check_count ≤ CMAX)
    (hnd : (checked_pfx w (arena mc ep map)).Nodup)
    (hsub : ∀ x ∈ checked_pfx w (arena mc ep map),
      x ∈ level_index_set (get_location_table cat g) ep map)
    (hcard : (level_index_set (get_location_table cat g) ep map).card ≤ CMAX) :
    (w.state.level_states.getD (arena mc ep map) default).check_count < CMAX
  ∧ ((f_locrecv cat g mc w loc_id).state.level_states.getD
      (arena mc ep map) default).check_count ≤ CMAX
  ∧ ((f_locrecv cat g mc w loc_id).state.level_states.getD
      (arena mc ep map) default).checks.length = CMAX
  ∧ (checked_pfx (f_locrecv cat g mc w loc_id) (arena mc ep map)).Nodup
  ∧ ∀ x ∈ checked_pfx (f_locrecv cat g mc w loc_id) (arena mc ep map),
      x ∈ level_index_set (get_location_table cat g) ep map := by
  set k := arena mc ep map with hkdef
  set S := level_index_set (get_location_table cat g) ep map with hSdef
  have hmemS : index ∈ S :=
    found_mem_level_index_set (get_location_table cat g) loc_id ep map index hwf hfind hpos
  have hnotmem : index ∉ checked_pfx w k := (is_loc_checked_false_iff _ _).mp hch
  have hpl : (checked_pfx w k).length
      = (w.state.level_states.getD k default).check_count := by
    unfold checked_pfx
    rw [List.length_take]
    omega
  have hsubset : (checked_pfx w k).toFinset ⊆ S.erase index := by
    intro x hx
    rw [List.mem_toFinset] at hx
    rw [Finset.mem_erase]
    exact ⟨fun hxe => hnotmem (hxe ▸ hx), hsub x hx⟩
  have hc1 : (checked_pfx w k).toFinset.card
      = (w.state.level_states.getD k default).check_count := by
    rw [List.toFinset_card_of_nodup hnd, hpl]
  have hc2 : (S.erase index).card = S.card - 1 := Finset.card_erase_of_mem hmemS
  have hc3 := Finset.card_le_card hsubset
  have hposS : 0 < S.card := Finset.card_pos.mpr ⟨index, hmemS⟩
  have hlt : (w.state.level_states.getD k default).check_count < CMAX := by omega
  have hcclt : (w.state.level_states.getD k default).check_count
      < (w.state.level_states.getD k default).checks.length := by omega
  have hf := f_locrecv_append cat g mc w loc_id ep map index hfind hch hpos
  have hpfx := checked_pfx_append w k index hk hcclt
  have hlvl := append_check_level w k index hk
  refine ⟨hlt, ?_, ?_, ?_, ?_⟩
  · rw [hf, hlvl]
    simpa using hlt
  · rw [hf, hlvl]
    simpa using hlen
  · rw [hf, hpfx, List.nodup_append]
    refine ⟨hnd, by simp, ?_⟩
    intro a ha hb
    rw [List.mem_singleton] at hb
    subst hb
    exact hnotmem ha
  · rw [hf, hpfx]
    intro x hx
    rcases List.mem_append.mp hx with h1 | h1
    · exact hsub x h1
    · rw [List.mem_singleton] at h1
      subst h1
      exact hmemS

/-- Witness for C9 on the example catalog: level (1,1) offers two
nonnegative indices and `AP_CHECK_MAX = 4`, so the append of index 1 to a
fresh world stays in bounds and preserves the invariants. -/
theorem locrecv_append_in_bounds_witness :
    (((init_world ap_game_t.doom 4).state.level_states.getD (arena 9 1 1)
        default).check_count < 4)
  ∧ ((f_locrecv exCat ap_game_t.doom 9 (init_world ap_game_t.doom 4)
        7001).state.level_states.getD (arena 9 1 1) default).check_count ≤ 4 := by
  have h := locrecv_append_in_bounds exCat ap_game_t.doom 9 4
    (init_world ap_game_t.doom 4) 7001 1 1 1 (by decide) (by decide) (by decide)
    (by decide) (by decide) (by decide) (by decide) (by decide)
    (by decide) (by decide)
  exact ⟨h.1, h.2.1⟩

/-! ## C7 — pending-item queue FIFO -/

theorem f_itemrecv_in_game (cat : Catalogs) (g : ap_game_t) (mc : Nat)
    (w : ApWorld) (id : Int) (b : Bool) :
    (f_itemrecv cat g mc w id b).in_game = w.in_game := by
  unfold f_itemrecv
  split
  · rfl
  · split
    · rfl
    · split
      · rfl
      · split <;> rfl

theorem f_itemrecv_queue_in_game (cat : Catalogs) (g : ap_game_t) (mc : Nat)
    (w : ApWorld) (id : Int) (h : w.in_game = true) :
    (f_itemrecv cat g mc w id true).item_queue = w.item_queue := by
  unfold f_itemrecv
  split
  · rfl
  · rw [if_neg (by simp), if_neg (by simp [h])]
    split <;> rfl

theorem f_itemrecv_set_queue (cat : Catalogs) (g : ap_game_t) (mc : Nat)
    (w : ApWorld) (id : Int) (q : List Int) (h : w.in_game = true) :
    f_itemrecv cat g mc { w with item_queue := q } id true
      = { f_itemrecv cat g mc w id true with item_queue := q } := by
  rcases halo : alookup id (get_item_type_table cat g) with _ | item
  · simp [f_itemrecv, halo]
  · rcases hspr : alookup item.doom_type cat.ap_heretic_type_sprites with _ | spr <;>
      simp [f_itemrecv, halo, h, hspr]

theorem f_itemrecv_queue_not_in_game (cat : Catalogs) (g : ap_game_t) (mc : Nat)
    (w : ApWorld) (id : Int) (h : w.in_game = false)
    (hk : (alookup id (get_item_type_table cat g)).isSome = true) :
    (f_itemrecv cat g mc w id true).item_queue = w.item_queue ++ [id]
  ∧ (f_itemrecv cat g mc w id true).log = w.log
  ∧ (f_itemrecv cat g mc w id true).icons = w.icons
  ∧ (f_itemrecv cat g mc w id true).in_game = false := by
  rcases halo : alookup id (get_item_type_table cat g) with _ | item
  · rw [halo] at hk
    simp at hk
  · simp [f_itemrecv, halo, h]

theorem recvAll_queue_not_in_game (cat : Catalogs) (g : ap_game_t) (mc : Nat) :
    ∀ (ids : List Int) (w : ApWorld), w.in_game = false →
      (∀ i ∈ ids, (alookup i (get_item_type_table cat g)).isSome = true) →
      (recvAll cat g mc w ids).item_queue = w.item_queue ++ ids
  | [], w, _, _ => by simp [recvAll]
  | id :: rest, w, h, hks => by
    have h1 := f_itemrecv_queue_not_in_game cat g mc w id h (hks id (by simp))
    have ih := recvAll_queue_not_in_game cat g mc rest
      (f_itemrecv cat g mc w id true) h1.2.2.2 (fun i hi => hks i (by simp [hi]))
    simp only [recvAll, List.foldl_cons] at ih ⊢
    rw [ih, h1.1]
    simp

theorem recvAll_queue_in_game (cat : Catalogs) (g : ap_game_t) (mc : Nat) :
    ∀ (ids : List Int) (w : ApWorld), w.in_game = true →
      (recvAll cat g mc w ids).item_queue = w.item_queue
      ∧ (recvAll cat g mc w ids).in_game = true
  | [], w, h => ⟨rfl, h⟩
  | id :: rest, w, h => by
    have h1 := f_itemrecv_queue_in_game cat g mc w id h
    have h2 := f_itemrecv_in_game cat g mc w id true
    have ih := recvAll_queue_in_game cat g mc rest (f_itemrecv cat g mc w id true)
      (by rw [h2, h])
    constructor
    · simp only [recvAll, List.foldl_cons] at ih ⊢
      rw [ih.1, h1]
    · simp only [recvAll, List.foldl_cons] at ih ⊢
      exact ih.2

theorem drain_items_spec (cat : Catalogs) (g : ap_game_t) (mc : Nat) :
    ∀ (ids : List Int) (w : ApWorld), w.in_game = true → w.item_queue = ids →
      drain_items cat g mc ids.length w
        = recvAll cat g mc { w with item_queue := [] } ids
  | [], w, hin, hq => by
    have he : { w with item_queue := ([] : List Int) } = w := by
      cases w
      simp_all
    simp [drain_items, recvAll, he]
  | id :: rest, w, hin, hq => by
    have hw1in : (f_itemrecv cat g mc { w with item_queue := rest } id true).in_game
        = true := by
      rw [f_itemrecv_in_game]
      exact hin
    have hw1q : (f_itemrecv cat g mc { w with item_queue := rest } id true).item_queue
        = rest :=
      f_itemrecv_queue_in_game cat g mc { w with item_queue := rest } id hin
    have step : drain_items cat g mc (id :: rest).length w
        = drain_items cat g mc rest.length
            (f_itemrecv cat g mc { w with item_queue := rest } id true) := by
      simp only [List.length_cons, drain_items, hq]
    have e1 := f_itemrecv_set_queue cat g mc w id [] hin
    have e2 := f_itemrecv_set_queue cat g mc w id rest hin
    have e3 : { f_itemrecv cat g mc { w with item_queue := rest } id true with
          item_queue := ([] : List Int) }
        = f_itemrecv cat g mc { w with item_queue := ([] : List Int) } id true := by
      rw [e1, e2]
    calc drain_items cat g mc (id :: rest).length w
        = drain_items cat g mc rest.length
            (f_itemrecv cat g mc { w with item_queue := rest } id true) := step
      _ = recvAll cat g mc { f_itemrecv cat g mc { w with item_queue := rest } id true
            with item_queue := [] } rest :=
          drain_items_spec cat g mc rest _ hw1in hw1q
      _ = recvAll cat g mc (f_itemrecv cat g mc { w with item_queue := [] } id true)
            rest := by rw [e3]
      _ = recvAll cat g mc { w with item_queue := [] } (id :: rest) := by
            simp [recvAll]

/-- C7: while not in game, a known item delivered with notification is
appended to the pending queue (no give-item call, no icon), and a whole
sequence of such deliveries queues in arrival order; on an update while in
game, the queue is replayed front-first through `f_itemrecv` with
notification enabled and ends empty. -/
theorem pending_queue_fifo (cat : Catalogs) (g : ap_game_t) (mc : Nat)
    (w : ApWorld) (ids : List Int) (id : Int)
    (hk1 : (alookup id (get_item_type_table cat g)).isSome = true)
    (hks : ∀ i ∈ ids, (alookup i (get_item_type_table cat g)).isSome = true) :
    (w.in_game = false →
      (f_itemrecv cat g mc w id true).item_queue = w.item_queue ++ [id]
      ∧ (f_itemrecv cat g mc w id true).log = w.log
      ∧ (f_itemrecv cat g mc w id true).icons = w.icons
      ∧ (recvAll cat g mc w ids).item_queue = w.item_queue ++ ids)
  ∧ (w.in_game = true →
      apdoom_update_items cat g mc w
        = recvAll cat g mc { w with item_queue := [] } w.item_queue
      ∧ (apdoom_update_items cat g mc w).item_queue = []) := by
  constructor
  · intro h
    have h1 := f_itemrecv_queue_not_in_game cat g mc w id h hk1
    exact ⟨h1.1, h1.2.1, h1.2.2.1, recvAll_queue_not_in_game cat g mc ids w h hks⟩
  · intro h
    have hd := drain_items_spec cat g mc w.item_queue w h rfl
    have hru := recvAll_queue_in_game cat g mc w.item_queue
      { w with item_queue := [] } h
    constructor
    · simp only [apdoom_update_items]
      rw [if_pos h]
      exact hd
    · simp only [apdoom_update_items]
      rw [if_pos h, hd]
      exact hru.1

def qWorld : ApWorld :=
  { init_world ap_game_t.doom 4 with item_queue := [101, 100], in_game := true }

/-- Witness for C7: delivering known item 101 to the fresh
(not-in-game) world queues it; updating `qWorld` (in game, queue
[101, 100]) replays the queue in order and empties it. -/
theorem pending_queue_fifo_witness :
    (f_itemrecv exCat ap_game_t.doom 9 (init_world ap_game_t.doom 4) 101
      true).item_queue = [101]
  ∧ apdoom_update_items exCat ap_game_t.doom 9 qWorld
      = recvAll exCat ap_game_t.doom 9 { qWorld with item_queue := [] } [101, 100]
  ∧ (apdoom_update_items exCat ap_game_t.doom 9 qWorld).item_queue = [] := by
  have h1 := (pending_queue_fifo exCat ap_game_t.doom 9 (init_world ap_game_t.doom 4)
    [] 101 (by decide) (by decide)).1 rfl
  have h2 := (pending_queue_fifo exCat ap_game_t.doom 9 qWorld [] 101
    (by decide) (by decide)).2 rfl
  exact ⟨by simpa using h1.1, h2.1, h2.2⟩

/-! ## C1 — persistence round trip -/

theorem ApWorld_fields_eq (a b : ApWorld) (h1 : a.state = b.state)
    (h2 : a.item_queue = b.item_queue) (h3 : a.progressive = b.progressive)
    (h4 : a.icons = b.icons) (h5 : a.in_game = b.in_game) (h6 : a.log = b.log) :
    a = b := by
  cases a
  cases b
  simp_all

theorem ap_state_fields_eq (a b : ap_state_t) (h1 : a.player_state = b.player_state)
    (h2 : a.level_states = b.level_states) (h3 : a.episodes = b.episodes)
    (h4 : a.ep = b.ep) (h5 : a.map = b.map) (h6 : a.difficulty = b.difficulty)
    (h7 : a.random_monsters = b.random_monsters) (h8 : a.random_items = b.random_items)
    (h9 : a.flip_levels = b.flip_levels) (h10 : a.two_ways_keydoors = b.two_ways_keydoors)
    (h11 : a.victory = b.victory) : a = b := by
  cases a
  cases b
  simp_all

theorem ap_player_fields_eq (a b : ap_player_state_t) (h1 : a.health = b.health)
    (h2 : a.armor_points = b.armor_points) (h3 : a.armor_type = b.armor_type)
    (h4 : a.backpack = b.backpack) (h5 : a.ready_weapon = b.ready_weapon)
    (h6 : a.kill_count = b.kill_count) (h7 : a.item_count = b.item_count)
    (h8 : a.secret_count = b.secret_count) (h9 : a.powers = b.powers)
    (h10 : a.weapon_owned = b.weapon_owned) (h11 : a.ammo = b.ammo)
    (h12 : a.max_ammo = b.max_ammo) (h13 : a.inventory = b.inventory) : a = b := by
  cases a
  cases b
  simp_all

/-- A 0/1 flag value, the range every boolean-like `int` of the store stays
in under the reconciler's writes (they only ever assign 0 or 1). -/
abbrev Flag01 (x : Int) : Prop := x = 0 ∨ x = 1

abbrev LvlWF (lvl : ap_level_state_t) : Prop :=
  lvl.keys.length = 3 ∧ Flag01 lvl.completed ∧ (∀ k ∈ lvl.keys, Flag01 k)
  ∧ Flag01 lvl.has_map ∧ Flag01 lvl.unlocked ∧ Flag01 lvl.special

/-- Reachable-store shape: allocation lengths from `apdoom_init`, 0/1 flag
values, fist and pistol owned, max-ammo consistent with the backpack flag,
and no per-level (type 9) inventory slots. -/
abbrev WFStore (g : ap_game_t) (w : ApWorld) : Prop :=
  w.state.player_state.powers.length = ap_powerup_count g
  ∧ w.state.player_state.weapon_owned.length = ap_weapon_count g
  ∧ (∀ x ∈ w.state.player_state.weapon_owned, Flag01 x)
  ∧ w.state.player_state.weapon_owned.getD 0 0 = 1
  ∧ w.state.player_state.weapon_owned.getD 1 0 = 1
  ∧ w.state.player_state.ammo.length = ap_ammo_count g
  ∧ Flag01 w.state.player_state.backpack
  ∧ w.state.player_state.max_ammo
      = (if w.state.player_state.backpack = 0 then get_max_ammos g
         else (get_max_ammos g).map (· * 2))
  ∧ w.state.player_state.inventory.length = ap_inventory_count g
  ∧ (∀ s ∈ w.state.player_state.inventory, s.1 ≠ 9)
  ∧ w.state.level_states.length = ap_episode_count g * ap_map_count g
  ∧ (∀ lvl ∈ w.state.level_states, LvlWF lvl)
  ∧ Flag01 w.state.victory

/-- What the round trip does to one level: progress flags survive, while
the checked list, its count, and the (never persisted) flip flag are back
at their `apdoom_init` defaults. -/
def reset_transient (CMAX : Nat) (lvl : ap_level_state_t) : ap_level_state_t :=
  { lvl with check_count := 0, checks := List.replicate CMAX (-1), flipped := 0 }

theorem getD_mem {α : Type} : ∀ (l : List α) (n : Nat) (d : α), n < l.length →
    l.getD n d ∈ l
  | [], _, _, h => by simp at h
  | a :: as, 0, d, _ => by simp
  | a :: as, n + 1, d, h =>
    List.mem_cons.mpr (Or.inr (getD_mem as n d (by simpa using h)))

theorem load_serialize_level (CMAX : Nat) (lvl : ap_level_state_t) (h : LvlWF lvl) :
    load_level (init_level CMAX) (some (serialize_level lvl))
      = reset_transient CMAX lvl := by
  obtain ⟨hk3, hc, hks, hm, hu, hsp⟩ := h
  obtain ⟨k0, k1, k2, hkeq⟩ := List.length_eq_three.mp hk3
  obtain ⟨c, ks, cc, chks, hmp, unl, sp, fl⟩ := lvl
  simp only at hkeq hks hc hm hu hsp
  subst hkeq
  have h0 : Int.lor 0 c = c := lor_zero_bit c hc
  have h1 : Int.lor 0 k0 = k0 := lor_zero_bit k0 (hks k0 (by simp))
  have h2 : Int.lor 0 k1 = k1 := lor_zero_bit k1 (hks k1 (by simp))
  have h3 : Int.lor 0 k2 = k2 := lor_zero_bit k2 (hks k2 (by simp))
  have h4 : Int.lor 0 hmp = hmp := lor_zero_bit hmp hm
  have h5 : Int.lor 0 unl = unl := lor_zero_bit unl hu
  have h6 : Int.lor 0 sp = sp := lor_zero_bit sp hsp
  simp [load_level, serialize_level, init_level, reset_transient,
    h0, h1, h2, h3, h4, h5, h6]

theorem save_doc_level (g : ap_game_t) (w : ApWorld) (k : Nat)
    (hk : k < ap_episode_count g * ap_map_count g) :
    ((save_state g w).episodes.getD (k / ap_map_count g) [])[k % ap_map_count g]?
      = some (serialize_level (w.state.level_states.getD k default)) := by
  have hmc : 0 < ap_map_count g := by cases g <;> simp [ap_map_count]
  have hdiv : k / ap_map_count g < ap_episode_count g :=
    Nat.div_lt_of_lt_mul (by rw [Nat.mul_comm] at hk; exact hk)
  have hmod : k % ap_map_count g < ap_map_count g := Nat.mod_lt _ hmc
  have h1 : (save_state g w).episodes
      = (List.range (ap_episode_count g)).map (fun i =>
          (List.range (ap_map_count g)).map fun j =>
            serialize_level
              (w.state.level_states.getD (i * ap_map_count g + j) default)) := rfl
  have hidx : k / ap_map_count g * ap_map_count g + k % ap_map_count g = k := by
    rw [Nat.mul_comm]
    exact Nat.div_add_mod k (ap_map_count g)
  rw [h1, List.getD_eq_getElem?_getD, List.getElem?_map,
    List.getElem?_range hdiv, Option.map_some', Option.getD_some,
    List.getElem?_map, List.getElem?_range hmod, Option.map_some', hidx]

theorem load_save_levels (g : ap_game_t) (CMAX : Nat) (w : ApWorld)
    (hlen : w.state.level_states.length = ap_episode_count g * ap_map_count g)
    (hwl : ∀ lvl ∈ w.state.level_states, LvlWF lvl) :
    mapWithIndex
      (fun k lvl =>
        if k < ap_episode_count g * ap_map_count g then
          load_level lvl
            ((save_state g w).episodes.getD (k / ap_map_count g)
              [])[k % ap_map_count g]?
        else lvl)
      (List.replicate (ap_episode_count g * ap_map_count g) (init_level CMAX))
      = w.state.level_states.map (reset_transient CMAX) := by
  apply List.ext_getElem?
  intro k
  rw [mapWithIndex_getElem?, List.getElem?_map]
  by_cases hk : k < ap_episode_count g * ap_map_count g
  · have hrep : (List.replicate (ap_episode_count g * ap_map_count g)
        (init_level CMAX))[k]? = some (init_level CMAX) := by
      rw [List.getElem?_replicate, if_pos hk]
    have hget : w.state.level_states[k]?
        = some (w.state.level_states.getD k default) := by
      rw [List.getD_eq_getElem?_getD,
        List.getElem?_eq_getElem (by omega : k < w.state.level_states.length)]
      rfl
    rw [hrep, hget, Option.map_some', Option.map_some', if_pos hk,
      save_doc_level g w k hk,
      load_serialize_level CMAX _ (hwl _ (getD_mem _ _ _ (by omega)))]
  · have hrep : (List.replicate (ap_episode_count g * ap_map_count g)
        (init_level CMAX))[k]? = none := by
      rw [List.getElem?_replicate, if_neg hk]
    have hget : w.state.level_states[k]? = none := by
      rw [List.getElem?_eq_none_iff]
      omega
    rw [hrep, hget]
    rfl

/-- C1 (amended): the `save_state`/`load_state` round trip into a freshly
initialised store of the same GameProfile preserves the player state (with
max-ammo re-derived from the backpack flag), the per-level progress flags,
the pending item queue in order, `ep`/`map`, the progressive-location set
and the victory flag — but resets every level's checked list and
`check_count` to the fresh defaults (the loader's reads of `checks` and
`check_count` are commented out), leaves the per-episode enabled flags at
the fresh all-zero defaults (they are saved as JSON booleans, which the
integer-typed reader ignores), and does not persist the flip flags or the
session-config scalars at all. -/
theorem save_load_round_trip (g : ap_game_t) (CMAX : Nat) (w : ApWorld)
    (hwf : WFStore g w) :
    load_state g (save_state g w) (init_world g CMAX)
      = { state :=
            { player_state := w.state.player_state,
              level_states := w.state.level_states.map (reset_transient CMAX),
              episodes := List.replicate (ap_episode_count g) 0,
              ep := w.state.ep, map := w.state.map,
              difficulty := 0, random_monsters := 0, random_items := 0,
              flip_levels := 0, two_ways_keydoors := 0,
              victory := w.state.victory },
          item_queue := w.item_queue, progressive := w.progressive,
          icons := [], in_game := false, log := [] } := by
  obtain ⟨hpow, hwo, hwo01, hwo0, hwo1, hammo, hbp, hmax, hinv, hinv9, hlen,
    hwl, hvic⟩ := hwf
  apply ApWorld_fields_eq
  · apply ap_state_fields_eq
    · apply ap_player_fields_eq
      · rfl
      · rfl
      · rfl
      · rfl
      · rfl
      · rfl
      · rfl
      · rfl
      · -- powers
        show loadInts (List.replicate (ap_powerup_count g) 0)
            (w.state.player_state.powers.take (ap_powerup_count g))
            = w.state.player_state.powers
        rw [← hpow, List.take_length]
        exact loadInts_full _ _ (by simp [hpow])
      · -- weapon_owned
        show loadOrInts (((List.replicate (ap_weapon_count g) 0).set 0 1).set 1 1)
            (w.state.player_state.weapon_owned.take (ap_weapon_count g))
            = w.state.player_state.weapon_owned
        rw [← hwo, List.take_length]
        apply loadOrInts_pointwise
        · simp [hwo]
        · intro i hi
          by_cases hi0 : i = 0
          · subst hi0
            rw [getD_set_ne _ 1 0 _ _ (by omega),
              getD_set_self _ 0 _ _ (by simpa using hi), hwo0]
            decide
          · by_cases hi1 : i = 1
            · subst hi1
              rw [getD_set_self _ 1 _ _ (by simpa using hi), hwo1]
              decide
            · rw [getD_set_ne _ 1 i _ _ (Ne.symm hi1), getD_set_ne _ 0 i _ _ (Ne.symm hi0),
                getD_replicate _ _ _ _ hi]
              exact lor_zero_bit _ (hwo01 _ (getD_mem _ _ _ hi))
      · -- ammo
        show loadInts ((List.replicate (ap_ammo_count g) 0).set 0 50)
            (w.state.player_state.ammo.take (ap_ammo_count g))
            = w.state.player_state.ammo
        rw [← hammo, List.take_length]
        exact loadInts_full _ _ (by simp [hammo])
      · -- max_ammo
        show (if w.state.player_state.backpack ≠ 0 then
            loadInts (get_max_ammos g)
              ((get_max_ammos g).map
                (· * (if w.state.player_state.backpack ≠ 0 then 2 else 1)))
          else get_max_ammos g) = w.state.player_state.max_ammo
        rcases hbp with h0 | h1
        · rw [h0]
          simp [hmax, h0]
        · rw [h1] at hmax ⊢
          have hmax2 : w.state.player_state.max_ammo
              = (get_max_ammos g).map (· * 2) := by
            rw [hmax, if_neg (by decide)]
          rw [hmax2]
          have hne : ((1 : Int) ≠ 0) := by decide
          rw [if_pos hne, if_pos hne]
          exact loadInts_full _ _ (by simp)
      · -- inventory
        show loadSlots (List.replicate (ap_inventory_count g) (0, 0))
            ((w.state.player_state.inventory.take (ap_inventory_count g)).filter
              (fun s => s.1 ≠ 9))
            = w.state.player_state.inventory
        rw [← hinv, List.take_length,
          List.filter_eq_self.mpr (fun a ha => decide_eq_true (hinv9 a ha))]
        exact loadSlots_full _ _ (by simp [hinv])
    · exact load_save_levels g CMAX w hlen hwl
    · rfl
    · rfl
    · rfl
    · rfl
    · rfl
    · rfl
    · rfl
    · rfl
    · -- victory
      show Int.lor 0 w.state.victory = w.state.victory
      exact lor_zero_bit _ hvic
  · rfl
  · -- progressive
    show (∅ : Finset Int) ∪ (w.progressive.sort (· ≤ ·)).toFinset = w.progressive
    rw [Finset.sort_toFinset]
    exact Finset.empty_union _
  · rfl
  · rfl
  · rfl

/-- A populated doom2 store: episode 1 enabled, local index 3 of level
(1,1) checked. -/
def rtLevel : ap_level_state_t :=
  { init_level 4 with check_count := 1, checks := [3, -1, -1, -1] }

def rtWorld : ApWorld :=
  let base := init_world ap_game_t.doom2 4
  let ls := base.state.level_states.set 0 rtLevel
  let st := { base.state with episodes := [1], level_states := ls }
  { base with state := st }

def rtResult : ApWorld :=
  load_state ap_game_t.doom2 (save_state ap_game_t.doom2 rtWorld)
    (init_world ap_game_t.doom2 4)

/-- Counterexample to C1 as stated: after the round trip, level (1,1) of
`rtWorld` has lost its checked index (check_count 1 → 0, checks reset to
sentinels) and the enabled-episode flag is back to 0. -/
theorem round_trip_loses_checks :
    (rtWorld.state.level_states.getD 0 default).check_count = 1
  ∧ (rtWorld.state.level_states.getD 0 default).checks = [3, -1, -1, -1]
  ∧ rtWorld.state.episodes = [1]
  ∧ (rtResult.state.level_states.getD 0 default).check_count = 0
  ∧ (rtResult.state.level_states.getD 0 default).checks = [-1, -1, -1, -1]
  ∧ rtResult.state.episodes = [0] := by
  decide

/-- Witness for the amended C1 at the concrete store `rtWorld`. -/
theorem save_load_round_trip_witness :
    rtResult
      = { state :=
            { player_state := rtWorld.state.player_state,
              level_states := rtWorld.state.level_states.map (reset_transient 4),
              episodes := List.replicate (ap_episode_count ap_game_t.doom2) 0,
              ep := rtWorld.state.ep, map := rtWorld.state.map,
              difficulty := 0, random_monsters := 0, random_items := 0,
              flip_levels := 0, two_ways_keydoors := 0,
              victory := rtWorld.state.victory },
          item_queue := rtWorld.item_queue, progressive := rtWorld.progressive,
          icons := [], in_game := false, log := [] } :=
  save_load_round_trip ap_game_t.doom2 4 rtWorld (by decide)
